import Mathlib

/-!
Shallow embedding of `calculateDeskLayout` (src/unnamed/part_000) and proofs
about its specification claims.

The TypeScript function is a pure four-stage pipeline over a list of people:
grouping by team, intra-team ordering, team classification into eight
categories, and composition of the team blocks into a final sequence.  The
embedding below mirrors the source statement by statement.  The one deviation
from a direct transcription is the return type: the source can throw a
`TypeError` (reading `team[0].dogStatus` of a team whose ordered member list
is empty, which happens exactly when every member of that team has an
unrecognized `dogStatus`), so the embedding returns `Option (List Person)`,
with `none` standing for the thrown exception.
-/

namespace DeskLayout

open scoped List

/-- Team reference carried on a person: identity plus display name. -/
structure TeamRef where
  id : String
  name : String
deriving DecidableEq

/-- A person record as consumed by `calculateDeskLayout`.  `dogStatus` is the
raw optional preference string; any value other than `some "AVOID"`,
`some "LIKE"`, `some "HAVE"` models an absent or unrecognized preference. -/
structure Person where
  id : String
  name : String
  team : Option TeamRef
  dogStatus : Option String
deriving DecidableEq

/-- Source: `person.team?.id ?? 'none'`. -/
def teamKey (p : Person) : String :=
  match p.team with
  | some t => t.id
  | none => "none"

/-- Source: `p.dogStatus === 'AVOID'`. -/
def isAvoid (p : Person) : Bool := p.dogStatus == some "AVOID"

/-- Source: `p.dogStatus === 'HAVE'`. -/
def isHave (p : Person) : Bool := p.dogStatus == some "HAVE"

/-- Source: `p.dogStatus === 'LIKE'`. -/
def isLike (p : Person) : Bool := p.dogStatus == some "LIKE"

/-- A person whose `dogStatus` is one of the three recognized values. -/
def classified (p : Person) : Bool := isAvoid p || isLike p || isHave p

/-- Distinct team keys of the input in order of first appearance, mirroring
insertion order of the `Map` built in step 1 of the source. -/
def teamKeysOf : List Person → List String
  | [] => []
  | p :: ps => teamKey p :: (teamKeysOf ps).filter (fun k => k != teamKey p)

/-- Step 1 of the source: group people by team.  Each key is paired with the
list of people carrying that key, in input order. -/
def teamGroups (people : List Person) : List (String × List Person) :=
  (teamKeysOf people).map (fun k => (k, people.filter (fun p => teamKey p == k)))

/-- The `for (let i = 0; i < have.length; i++)` loop of step 2 of the source,
together with the trailing `if (likeIndex < like.length)` push of leftover
LIKE members.  `likeL` is the full LIKE list, `lpg` is `likesPerGap`, `extra`
is `extraLikes`, the list argument is the not-yet-emitted HAVE members, the
first numeric argument is the loop counter `i` and the second is `likeIndex`.
`like.slice(likeIndex, likeIndex + likesToAdd)` is `(drop likeIndex).take
likesToAdd`. -/
def haveLoop (likeL : List Person) (lpg extra : Nat) :
    List Person → Nat → Nat → List Person
  | [], _, likeIdx => if likeIdx < likeL.length then likeL.drop likeIdx else []
  | [p], _, likeIdx =>
    p :: (if likeIdx < likeL.length then likeL.drop likeIdx else [])
  | p :: q :: hs, i, likeIdx =>
    let likesToAdd := lpg + (if extra > i + 1 then 1 else 0)
    p :: ((likeL.drop likeIdx).take likesToAdd ++
      haveLoop likeL lpg extra (q :: hs) (i + 1) (likeIdx + likesToAdd))

/-- Step 2 of the source: reorder one team's members.  AVOID members first;
with more than one HAVE member the LIKE members are distributed into the gaps
(`like.slice(0, initialLikes)` is `take initialLikes`), otherwise all LIKE
members and then the at-most-one HAVE member. -/
def orderTeam (team : List Person) : List Person :=
  let avoidL := team.filter isAvoid
  let haveL := team.filter isHave
  let likeL := team.filter isLike
  if haveL.length > 1 then
    let likesPerGap := likeL.length / (haveL.length + 1)
    let extraLikes := likeL.length % (haveL.length + 1)
    let initialLikes := likesPerGap + (if extraLikes > 0 then 1 else 0)
    avoidL ++ likeL.take initialLikes ++
      haveLoop likeL likesPerGap extraLikes haveL 0 initialLikes
  else
    avoidL ++ likeL ++ haveL

/-- The ordered team list of step 3: `Array.from(teamGroups.entries())` after
the in-place reordering of step 2. -/
def orderedTeams (people : List Person) : List (String × List Person) :=
  (teamGroups people).map (fun kt => (kt.1, orderTeam kt.2))

/-- Source: `team.some((p) => p.dogStatus === 'AVOID')`. -/
def hasAvoid (t : List Person) : Bool := t.any isAvoid

/-- Source: `team.some((p) => p.dogStatus === 'HAVE')`. -/
def hasHave (t : List Person) : Bool := t.any isHave

/-- Source: `team[team.length - 1].dogStatus === s`, for the nonempty teams on
which the source evaluates it. -/
def lastIs (t : List Person) (s : String) : Bool :=
  match t.getLast? with
  | some p => p.dogStatus == some s
  | none => false

/-- Source: `team[0].dogStatus === s`, for the nonempty teams on which the
source evaluates it. -/
def headIs (t : List Person) (s : String) : Bool :=
  match t.head? with
  | some p => p.dogStatus == some s
  | none => false

/-- Source: `team.every((p) => p.dogStatus === team[0].dogStatus)`.  On an
empty team the source throws; the value chosen here is never used because
`calculateDeskLayout` returns `none` before consulting it in that case. -/
def samePrefs (t : List Person) : Bool :=
  match t.head? with
  | some p0 => t.all (fun p => p.dogStatus == p0.dogStatus)
  | none => true

/-- Teams containing both an AVOID and a HAVE member. -/
def teamsWithAvoidAndHave (ts : List (String × List Person)) :
    List (String × List Person) :=
  ts.filter (fun kt => hasAvoid kt.2 && hasHave kt.2)

/-- Teams not containing both an AVOID and a HAVE member. -/
def remainingTeams (ts : List (String × List Person)) :
    List (String × List Person) :=
  ts.filter (fun kt => !(hasAvoid kt.2 && hasHave kt.2))

/-- Teams with AVOID and HAVE whose ordered sequence ends with a HAVE. -/
def teamsWithBothEndHave (ts : List (String × List Person)) :
    List (String × List Person) :=
  (teamsWithAvoidAndHave ts).filter (fun kt => lastIs kt.2 "HAVE")

/-- Teams with AVOID and HAVE whose ordered sequence ends with a LIKE. -/
def teamsWithBothEndLike (ts : List (String × List Person)) :
    List (String × List Person) :=
  (teamsWithAvoidAndHave ts).filter (fun kt => lastIs kt.2 "LIKE")

/-- Remaining teams in which every member has the first member's status. -/
def teamsSamePreferences (ts : List (String × List Person)) :
    List (String × List Person) :=
  (remainingTeams ts).filter (fun kt => samePrefs kt.2)

/-- Remaining teams containing at least two distinct statuses. -/
def teamsDifferentPreferences (ts : List (String × List Person)) :
    List (String × List Person) :=
  (remainingTeams ts).filter (fun kt => !samePrefs kt.2)

/-- Same-preference teams made of AVOID members. -/
def teamsOnlyAvoid (ts : List (String × List Person)) :
    List (String × List Person) :=
  (teamsSamePreferences ts).filter (fun kt => headIs kt.2 "AVOID")

/-- Same-preference teams made of LIKE members. -/
def teamsOnlyLike (ts : List (String × List Person)) :
    List (String × List Person) :=
  (teamsSamePreferences ts).filter (fun kt => headIs kt.2 "LIKE")

/-- Same-preference teams made of HAVE members. -/
def teamsOnlyHave (ts : List (String × List Person)) :
    List (String × List Person) :=
  (teamsSamePreferences ts).filter (fun kt => headIs kt.2 "HAVE")

/-- Mixed teams with AVOID, without HAVE, ending with a LIKE. -/
def teamsAvoidEndLike (ts : List (String × List Person)) :
    List (String × List Person) :=
  (teamsDifferentPreferences ts).filter
    (fun kt => hasAvoid kt.2 && !hasHave kt.2 && lastIs kt.2 "LIKE")

/-- Mixed teams with HAVE, without AVOID, ending with a LIKE. -/
def teamsHaveEndLike (ts : List (String × List Person)) :
    List (String × List Person) :=
  (teamsDifferentPreferences ts).filter
    (fun kt => hasHave kt.2 && !hasAvoid kt.2 && lastIs kt.2 "LIKE")

/-- Mixed teams with HAVE, without AVOID, ending with a HAVE. -/
def teamsHaveEndHave (ts : List (String × List Person)) :
    List (String × List Person) :=
  (teamsDifferentPreferences ts).filter
    (fun kt => hasHave kt.2 && !hasAvoid kt.2 && lastIs kt.2 "HAVE")

/-- The `while` loop of step 4 of the source with its three mutable indices
`bothEndHaveIndex`, `onlyLikeIndex`, `haveEndLikeIndex`.  Each iteration first
appends one `teamsOnlyLike` entry if available, else one `teamsHaveEndLike`
entry if available, and then the next `teamsWithBothEndHave` entry if
available.  Indexing `xs[i]` is rendered as `(xs.drop i).take 1`. -/
def middleWhile (bhe ol hel : List (String × List Person)) (i j k : Nat) :
    List (String × List Person) :=
  if hc : i < bhe.length ∨ j < ol.length ∨ k < hel.length then
    if hj : j < ol.length then
      (ol.drop j).take 1 ++
        (if hi : i < bhe.length then
          (bhe.drop i).take 1 ++ middleWhile bhe ol hel (i + 1) (j + 1) k
        else
          middleWhile bhe ol hel i (j + 1) k)
    else if hk : k < hel.length then
      (hel.drop k).take 1 ++
        (if hi : i < bhe.length then
          (bhe.drop i).take 1 ++ middleWhile bhe ol hel (i + 1) j (k + 1)
        else
          middleWhile bhe ol hel i j (k + 1))
    else
      (bhe.drop i).take 1 ++ middleWhile bhe ol hel (i + 1) j k
  else []
termination_by (bhe.length - i) + (ol.length - j) + (hel.length - k)
decreasing_by
  · omega
  · omega
  · omega
  · omega
  · rcases hc with h | h | h <;> omega

/-- Step 4 of the source: the middle block.  If `teamsWithBothEndHave` is
nonempty it starts with its first entry and the `while` loop runs from
indices `(1, 0, 0)`; otherwise the block is `teamsOnlyLike` followed by
`teamsHaveEndLike`. -/
def teamsInMiddle (bhe ol hel : List (String × List Person)) :
    List (String × List Person) :=
  if 0 < bhe.length then
    bhe.take 1 ++ middleWhile bhe ol hel 1 0 0
  else
    ol ++ hel

/-- Step 5 of the source: the fixed emission order of the six team buckets. -/
def emittedTeams (ts : List (String × List Person)) :
    List (String × List Person) :=
  teamsOnlyAvoid ts ++ teamsAvoidEndLike ts ++ teamsWithBothEndLike ts ++
    teamsInMiddle (teamsWithBothEndHave ts) (teamsOnlyLike ts)
      (teamsHaveEndLike ts) ++
    teamsHaveEndHave ts ++ teamsOnlyHave ts

/-- Spec-side description of the composer's interleaving rounds (spec section
4.4), stated on the not-yet-consumed remainders of the three buckets: while
any bucket has unconsumed teams, a round appends one `OnlyLike` team if
available, else one `HaveEndLike` team if available, and then the next
`BothEndHave` team if available. -/
def middleSpecLoop : List (String × List Person) → List (String × List Person) →
    List (String × List Person) → List (String × List Person)
  | [], [], [] => []
  | [], o :: os, hel => o :: middleSpecLoop [] os hel
  | [], [], h :: hs => h :: middleSpecLoop [] [] hs
  | b :: bs, o :: os, hel => o :: b :: middleSpecLoop bs os hel
  | b :: bs, [], h :: hs => h :: b :: middleSpecLoop bs [] hs
  | b :: bs, [], [] => b :: middleSpecLoop bs [] []

/-- Spec-side middle block: if `BothEndHave` is nonempty, its first team
followed by the interleaving rounds; otherwise all `OnlyLike` teams followed
by all `HaveEndLike` teams. -/
def teamsInMiddleSpec (bhe ol hel : List (String × List Person)) :
    List (String × List Person) :=
  match bhe with
  | [] => ol ++ hel
  | b :: bs => b :: middleSpecLoop bs ol hel

/-- Combined predicate the source uses for the OnlyAvoid bucket: not both
AVOID and HAVE, all statuses equal, first member AVOID. -/
def catOnlyAvoid (t : List Person) : Bool :=
  !(hasAvoid t && hasHave t) && samePrefs t && headIs t "AVOID"

/-- Combined predicate for the OnlyLike bucket. -/
def catOnlyLike (t : List Person) : Bool :=
  !(hasAvoid t && hasHave t) && samePrefs t && headIs t "LIKE"

/-- Combined predicate for the OnlyHave bucket. -/
def catOnlyHave (t : List Person) : Bool :=
  !(hasAvoid t && hasHave t) && samePrefs t && headIs t "HAVE"

/-- Combined predicate for the AvoidEndLike bucket. -/
def catAvoidEndLike (t : List Person) : Bool :=
  !(hasAvoid t && hasHave t) && !samePrefs t &&
    (hasAvoid t && !hasHave t && lastIs t "LIKE")

/-- Combined predicate for the HaveEndLike bucket. -/
def catHaveEndLike (t : List Person) : Bool :=
  !(hasAvoid t && hasHave t) && !samePrefs t &&
    (hasHave t && !hasAvoid t && lastIs t "LIKE")

/-- Combined predicate for the HaveEndHave bucket. -/
def catHaveEndHave (t : List Person) : Bool :=
  !(hasAvoid t && hasHave t) && !samePrefs t &&
    (hasHave t && !hasAvoid t && lastIs t "HAVE")

/-- Combined predicate for the BothEndHave bucket. -/
def catBothEndHave (t : List Person) : Bool :=
  (hasAvoid t && hasHave t) && lastIs t "HAVE"

/-- Combined predicate for the BothEndLike bucket. -/
def catBothEndLike (t : List Person) : Bool :=
  (hasAvoid t && hasHave t) && lastIs t "LIKE"

/-- Numeric value of a Bool, used to count satisfied category predicates. -/
def boolNat (b : Bool) : Nat := if b then 1 else 0

/-- How many of the eight category predicates an ordered team satisfies. -/
def categoryCount (t : List Person) : Nat :=
  boolNat (catOnlyAvoid t) + boolNat (catOnlyLike t) + boolNat (catOnlyHave t) +
    boolNat (catAvoidEndLike t) + boolNat (catHaveEndLike t) +
    boolNat (catHaveEndHave t) + boolNat (catBothEndHave t) +
    boolNat (catBothEndLike t)

/-- Number of LIKE members before the first HAVE member of an ordered team. -/
def likeCountBeforeFirstHave (t : List Person) : Nat :=
  ((t.takeWhile (fun p => !isHave p)).filter isLike).length

/-- Shorthand for building a concrete person on a concrete team. -/
def mkP (i t : String) (s : Option String) : Person := ⟨i, i, some ⟨t, t⟩, s⟩

/-- Concrete input for the C1 witness: two teams, everybody classified. -/
def exC1 : List Person :=
  [mkP "a" "A" (some "AVOID"), mkP "l" "A" (some "LIKE"),
   mkP "h" "B" (some "HAVE")]

/-- Concrete all-unclassified one-team input for the C2 counterexample. -/
def exC2 : List Person := [mkP "x" "t" none]

/-- Concrete input for the witness of the amended C2: one classified team and
one team whose members are all unclassified. -/
def exC2w : List Person :=
  [mkP "a" "A" (some "AVOID"), mkP "u1" "U" none, mkP "u2" "U" none]

/-- Concrete team with two HAVE and five LIKE members for C3. -/
def exC3 : List Person :=
  [mkP "h1" "t" (some "HAVE"), mkP "h2" "t" (some "HAVE"),
   mkP "l1" "t" (some "LIKE"), mkP "l2" "t" (some "LIKE"),
   mkP "l3" "t" (some "LIKE"), mkP "l4" "t" (some "LIKE"),
   mkP "l5" "t" (some "LIKE")]

/-- Concrete all-AVOID team for the C4 scenario witness. -/
def exC4as : List Person := [mkP "a1" "A" (some "AVOID"), mkP "a2" "A" (some "AVOID")]

/-- Concrete all-HAVE team for the C4 scenario witness. -/
def exC4hs : List Person := [mkP "h1" "B" (some "HAVE")]

/-- Concrete two-team input for the C6 witness. -/
def exC6 : List Person :=
  [mkP "l1" "t" (some "LIKE"), mkP "l2" "t" (some "LIKE"),
   mkP "h" "t" (some "HAVE"), mkP "a" "u" (some "AVOID")]

/-- Concrete mixed team for the C7 witness. -/
def exC7 : List Person := [mkP "a" "t" (some "AVOID"), mkP "l" "t" (some "LIKE")]

/-- Concrete team with AVOID, LIKE and two HAVE members for the C8 witness. -/
def exC8 : List Person :=
  [mkP "a" "t" (some "AVOID"), mkP "l" "t" (some "LIKE"),
   mkP "h1" "t" (some "HAVE"), mkP "h2" "t" (some "HAVE")]

/-- Concrete three-person input for the C9 counterexample: person `u1` is
unclassified inside a team that has a classified member, while team `U2`
consists of unclassified members only. -/
def exC9 : List Person :=
  [mkP "u1" "T" none, mkP "b" "T" (some "AVOID"), mkP "u2" "U2" none]

/-- Concrete input for the witness of the amended C9: an unclassified person
in a team with a classified member, and no all-unclassified team. -/
def exC9w : List Person := [mkP "u" "T" none, mkP "b" "T" (some "AVOID")]

/-- Concrete bucket lists for the C10 witness. -/
def exC10bhe : List (String × List Person) := [("B", [mkP "a" "B" (some "AVOID")])]

/-- The full `calculateDeskLayout`.  `none` models the `TypeError` the source
throws while computing `teamsSamePreferences` when some remaining team's
ordered member list is empty (`team[0]` is `undefined` there); on all other
inputs the result is the concatenation of the emitted team blocks. -/
def calculateDeskLayout (people : List Person) : Option (List Person) :=
  if people.length = 0 then some []
  else
    let ts := orderedTeams people
    if (remainingTeams ts).any (fun kt => kt.2.isEmpty) then none
    else some (((emittedTeams ts).map Prod.snd).flatten)

/-! ### Status basics -/

theorem isAvoid_iff {p : Person} : isAvoid p = true ↔ p.dogStatus = some "AVOID" := by
  simp [isAvoid]

theorem isLike_iff {p : Person} : isLike p = true ↔ p.dogStatus = some "LIKE" := by
  simp [isLike]

theorem isHave_iff {p : Person} : isHave p = true ↔ p.dogStatus = some "HAVE" := by
  simp [isHave]

theorem isLike_of_status {p : Person} (h : p.dogStatus = some "LIKE") :
    isAvoid p = false ∧ isLike p = true ∧ isHave p = false := by
  refine ⟨?_, ?_, ?_⟩ <;> simp [isAvoid, isLike, isHave, h]

theorem isAvoid_of_status {p : Person} (h : p.dogStatus = some "AVOID") :
    isAvoid p = true ∧ isLike p = false ∧ isHave p = false := by
  refine ⟨?_, ?_, ?_⟩ <;> simp [isAvoid, isLike, isHave, h]

theorem isHave_of_status {p : Person} (h : p.dogStatus = some "HAVE") :
    isAvoid p = false ∧ isLike p = false ∧ isHave p = true := by
  refine ⟨?_, ?_, ?_⟩ <;> simp [isAvoid, isLike, isHave, h]

theorem classified_cases {p : Person} (h : classified p = true) :
    p.dogStatus = some "AVOID" ∨ p.dogStatus = some "LIKE" ∨
      p.dogStatus = some "HAVE" := by
  simp only [classified, Bool.or_eq_true] at h
  rcases h with (h | h) | h
  · exact Or.inl (isAvoid_iff.mp h)
  · exact Or.inr (Or.inl (isLike_iff.mp h))
  · exact Or.inr (Or.inr (isHave_iff.mp h))

/-! ### Lemmas about `haveLoop` -/

theorem haveLoop_perm (likeL : List Person) (lpg extra : Nat) :
    ∀ (hs : List Person) (i likeIdx : Nat),
      haveLoop likeL lpg extra hs i likeIdx ~ hs ++ likeL.drop likeIdx
  | [], _, likeIdx => by
    by_cases h : likeIdx < likeL.length
    · simp [haveLoop, h]
    · simp [haveLoop, h, List.drop_eq_nil_of_le (Nat.le_of_not_lt h)]
  | [p], _, likeIdx => by
    by_cases h : likeIdx < likeL.length
    · simp [haveLoop, h]
    · simp [haveLoop, h, List.drop_eq_nil_of_le (Nat.le_of_not_lt h)]
  | p :: q :: hs, i, likeIdx => by
    simp only [haveLoop]
    refine List.Perm.cons p ?_
    have ih := haveLoop_perm likeL lpg extra (q :: hs) (i + 1)
      (likeIdx + (lpg + if extra > i + 1 then 1 else 0))
    calc (likeL.drop likeIdx).take (lpg + if extra > i + 1 then 1 else 0) ++
          haveLoop likeL lpg extra (q :: hs) (i + 1)
            (likeIdx + (lpg + if extra > i + 1 then 1 else 0))
        ~ (likeL.drop likeIdx).take (lpg + if extra > i + 1 then 1 else 0) ++
            ((q :: hs) ++ likeL.drop
              (likeIdx + (lpg + if extra > i + 1 then 1 else 0))) :=
          List.Perm.append_left _ ih
      _ = (likeL.drop likeIdx).take (lpg + if extra > i + 1 then 1 else 0) ++
            ((q :: hs) ++ (likeL.drop likeIdx).drop
              (lpg + if extra > i + 1 then 1 else 0)) := by
          rw [List.drop_drop]
      _ ~ (q :: hs) ++
            ((likeL.drop likeIdx).take (lpg + if extra > i + 1 then 1 else 0) ++
              (likeL.drop likeIdx).drop (lpg + if extra > i + 1 then 1 else 0)) :=
          List.perm_append_comm_assoc _ _ _
      _ = (q :: hs) ++ likeL.drop likeIdx := by rw [List.take_append_drop]

theorem haveLoop_nil_like (lpg extra : Nat) :
    ∀ (hs : List Person) (i likeIdx : Nat),
      haveLoop [] lpg extra hs i likeIdx = hs
  | [], _, _ => by simp [haveLoop]
  | [p], _, _ => by simp [haveLoop]
  | p :: q :: hs, i, likeIdx => by
    simp only [haveLoop, List.drop_nil, List.take_nil, List.nil_append]
    rw [haveLoop_nil_like lpg extra (q :: hs)]

theorem haveLoop_getLast? (likeL : List Person) (lpg extra : Nat) :
    ∀ (hs : List Person) (i likeIdx : Nat), hs ≠ [] →
      ∃ x, (haveLoop likeL lpg extra hs i likeIdx).getLast? = some x ∧
        (x ∈ hs ∨ x ∈ likeL)
  | [], _, _, h => absurd rfl h
  | [p], _, likeIdx, _ => by
    by_cases h : likeIdx < likeL.length
    · have hd : likeL.drop likeIdx ≠ [] := by
        simp only [ne_eq, List.drop_eq_nil_iff]
        omega
      refine ⟨(likeL.drop likeIdx).getLast hd, ?_, ?_⟩
      · show (p :: if likeIdx < likeL.length then likeL.drop likeIdx
          else []).getLast? = _
        rw [if_pos h]
        have : p :: likeL.drop likeIdx = [p] ++ likeL.drop likeIdx := rfl
        rw [this, List.getLast?_append,
          List.getLast?_eq_getLast _ hd]
        rfl
      · exact Or.inr (List.drop_subset _ _ (List.getLast_mem hd))
    · exact ⟨p, by simp [haveLoop, h], Or.inl (by simp)⟩
  | p :: q :: hs, i, likeIdx, _ => by
    obtain ⟨x, hx, hmem⟩ := haveLoop_getLast? likeL lpg extra (q :: hs) (i + 1)
      (likeIdx + (lpg + if extra > i + 1 then 1 else 0)) (by simp)
    refine ⟨x, ?_, ?_⟩
    · simp only [haveLoop]
      have : (p :: (likeL.drop likeIdx).take
            (lpg + if extra > i + 1 then 1 else 0)) ++
          haveLoop likeL lpg extra (q :: hs) (i + 1)
            (likeIdx + (lpg + if extra > i + 1 then 1 else 0)) =
          p :: ((likeL.drop likeIdx).take
            (lpg + if extra > i + 1 then 1 else 0) ++
          haveLoop likeL lpg extra (q :: hs) (i + 1)
            (likeIdx + (lpg + if extra > i + 1 then 1 else 0))) := rfl
      rw [← this, List.getLast?_append, hx]
      rfl
    · rcases hmem with hq | hl
      · exact Or.inl (List.mem_cons_of_mem p hq)
      · exact Or.inr hl

/-! ### Lemmas about `orderTeam` -/

theorem orderTeam_eq_many {t : List Person} (hlen : (t.filter isHave).length > 1) :
    orderTeam t = t.filter isAvoid ++
      (t.filter isLike).take
        ((t.filter isLike).length / ((t.filter isHave).length + 1) +
          if (t.filter isLike).length % ((t.filter isHave).length + 1) > 0
            then 1 else 0) ++
      haveLoop (t.filter isLike)
        ((t.filter isLike).length / ((t.filter isHave).length + 1))
        ((t.filter isLike).length % ((t.filter isHave).length + 1))
        (t.filter isHave) 0
        ((t.filter isLike).length / ((t.filter isHave).length + 1) +
          if (t.filter isLike).length % ((t.filter isHave).length + 1) > 0
            then 1 else 0) := by
  simp only [orderTeam]
  rw [if_pos hlen]

theorem orderTeam_eq_few {t : List Person}
    (hlen : ¬(t.filter isHave).length > 1) :
    orderTeam t = t.filter isAvoid ++ t.filter isLike ++ t.filter isHave := by
  simp only [orderTeam]
  rw [if_neg hlen]

theorem orderTeam_perm_parts (t : List Person) :
    (orderTeam t).Perm
      (t.filter isAvoid ++ t.filter isLike ++ t.filter isHave) := by
  by_cases hlen : (t.filter isHave).length > 1
  · rw [orderTeam_eq_many hlen, List.append_assoc, List.append_assoc]
    refine List.Perm.append_left (t.filter isAvoid) ?_
    refine ((List.Perm.append_left _
      (haveLoop_perm _ _ _ _ 0 _)).trans ?_)
    refine (List.perm_append_comm_assoc _ _ _).trans ?_
    rw [List.take_append_drop]
    exact List.perm_append_comm
  · rw [orderTeam_eq_few hlen]

theorem mem_orderTeam {x : Person} {t : List Person} :
    x ∈ orderTeam t ↔ x ∈ t ∧ classified x = true := by
  rw [(orderTeam_perm_parts t).mem_iff]
  simp only [List.mem_append, List.mem_filter, classified, Bool.or_eq_true]
  tauto

theorem orderTeam_perm_self {t : List Person}
    (h : ∀ p ∈ t, classified p = true) : (orderTeam t).Perm t := by
  refine (orderTeam_perm_parts t).trans ?_
  have e1 : (t.filter (fun p => !isAvoid p)).filter isLike = t.filter isLike := by
    rw [List.filter_filter]
    refine List.filter_congr ?_
    intro p _
    cases hL : isLike p
    · simp
    · simp [(isLike_of_status (isLike_iff.mp hL)).1]
  have e2 : (t.filter (fun p => !isAvoid p)).filter (fun p => !isLike p) =
      t.filter isHave := by
    rw [List.filter_filter]
    refine List.filter_congr ?_
    intro p hp
    rcases classified_cases (h p hp) with hs | hs | hs
    · simp [(isAvoid_of_status hs).1, (isAvoid_of_status hs).2.2]
    · simp [(isLike_of_status hs).2.1, (isLike_of_status hs).2.2]
    · simp [(isHave_of_status hs).1, (isHave_of_status hs).2.1,
        (isHave_of_status hs).2.2]
  rw [List.append_assoc, ← e1, ← e2]
  refine (List.Perm.append_left _ (List.filter_append_perm _ _)).trans ?_
  exact List.filter_append_perm _ _

theorem orderTeam_ne_nil {t : List Person}
    (h : ∃ p ∈ t, classified p = true) : orderTeam t ≠ [] := by
  obtain ⟨p, hp, hc⟩ := h
  exact List.ne_nil_of_mem (mem_orderTeam.mpr ⟨hp, hc⟩)

theorem hasAvoid_orderTeam {t : List Person} :
    hasAvoid (orderTeam t) = true ↔ ∃ p ∈ t, isAvoid p = true := by
  simp only [hasAvoid, List.any_eq_true, mem_orderTeam]
  constructor
  · rintro ⟨p, ⟨hp, _⟩, ha⟩
    exact ⟨p, hp, ha⟩
  · rintro ⟨p, hp, ha⟩
    exact ⟨p, ⟨hp, by simp [classified, ha]⟩, ha⟩

theorem hasHave_orderTeam {t : List Person} :
    hasHave (orderTeam t) = true ↔ ∃ p ∈ t, isHave p = true := by
  simp only [hasHave, List.any_eq_true, mem_orderTeam]
  constructor
  · rintro ⟨p, ⟨hp, _⟩, ha⟩
    exact ⟨p, hp, ha⟩
  · rintro ⟨p, hp, ha⟩
    exact ⟨p, ⟨hp, by simp [classified, ha]⟩, ha⟩

theorem lastIs_of_getLast? {t : List Person} {x : Person}
    (h : t.getLast? = some x) (s : String) :
    lastIs t s = (x.dogStatus == some s) := by
  simp [lastIs, h]

theorem orderTeam_last_of_hasHave {t : List Person}
    (h : t.filter isHave ≠ []) :
    lastIs (orderTeam t) "HAVE" = true ∨ lastIs (orderTeam t) "LIKE" = true := by
  by_cases hlen : (t.filter isHave).length > 1
  · obtain ⟨x, hx, hm⟩ := haveLoop_getLast? (t.filter isLike)
      ((t.filter isLike).length / ((t.filter isHave).length + 1))
      ((t.filter isLike).length % ((t.filter isHave).length + 1))
      (t.filter isHave) 0
      ((t.filter isLike).length / ((t.filter isHave).length + 1) +
        if (t.filter isLike).length % ((t.filter isHave).length + 1) > 0
          then 1 else 0) h
    have hlast : (orderTeam t).getLast? = some x := by
      rw [orderTeam_eq_many hlen, List.getLast?_append, hx]
      rfl
    rcases hm with hH | hL
    · exact Or.inl (by
        rw [lastIs_of_getLast? hlast]
        simp [isHave_iff.mp (List.mem_filter.mp hH).2])
    · exact Or.inr (by
        rw [lastIs_of_getLast? hlast]
        simp [isLike_iff.mp (List.mem_filter.mp hL).2])
  · have h1 : (t.filter isHave).length = 1 := by
      have := List.length_pos.mpr h
      omega
    obtain ⟨x, hx⟩ := List.length_eq_one.mp h1
    have hlast : (orderTeam t).getLast? = some x := by
      rw [orderTeam_eq_few hlen, hx, List.getLast?_append]
      rfl
    refine Or.inl ?_
    rw [lastIs_of_getLast? hlast]
    have : x ∈ t.filter isHave := by
      rw [hx]
      simp
    simp [isHave_iff.mp (List.mem_filter.mp this).2]

theorem orderTeam_last_of_like {t : List Person}
    (hH : t.filter isHave = []) (hL : t.filter isLike ≠ []) :
    lastIs (orderTeam t) "LIKE" = true := by
  have hlen : ¬(t.filter isHave).length > 1 := by
    rw [hH]
    simp
  have hlast : (orderTeam t).getLast? =
      some ((t.filter isLike).getLast hL) := by
    rw [orderTeam_eq_few hlen, hH, List.append_nil, List.getLast?_append,
      List.getLast?_eq_getLast _ hL]
    rfl
  rw [lastIs_of_getLast? hlast]
  have hmem : (t.filter isLike).getLast hL ∈ t.filter isLike :=
    List.getLast_mem hL
  rw [isLike_iff.mp (List.mem_filter.mp hmem).2]
  rfl

/-! ### Lemmas about `samePrefs`, `headIs` and `lastIs` -/

theorem uniform_of_samePrefs {t : List Person} (hS : samePrefs t = true)
    {p q : Person} (hp : p ∈ t) (hq : q ∈ t) :
    p.dogStatus = q.dogStatus := by
  unfold samePrefs at hS
  cases ht : t.head? with
  | none =>
    rw [List.head?_eq_none_iff] at ht
    subst ht
    cases hp
  | some p0 =>
    rw [ht] at hS
    simp only [List.all_eq_true, beq_iff_eq] at hS
    rw [hS p hp, hS q hq]

theorem samePrefs_of_uniform {t : List Person} {s : String}
    (h : ∀ p ∈ t, p.dogStatus = some s) : samePrefs t = true := by
  unfold samePrefs
  cases ht : t.head? with
  | none => rfl
  | some p0 =>
    have hp0 : p0 ∈ t := List.mem_of_mem_head? (by rw [ht]; rfl)
    simp only [List.all_eq_true, beq_iff_eq]
    intro p hp
    rw [h p hp, h p0 hp0]

theorem headIs_of_head? {t : List Person} {x : Person}
    (h : t.head? = some x) (s : String) :
    headIs t s = (x.dogStatus == some s) := by
  simp [headIs, h]

theorem headIs_true_of_status {t : List Person} (h : t ≠ []) {s : String}
    (hs : (t.head h).dogStatus = some s) : headIs t s = true := by
  rw [headIs_of_head? (List.head?_eq_head h), hs]
  exact beq_self_eq_true _

theorem headIs_false_of_status {t : List Person} (h : t ≠ []) {s s' : String}
    (hs : (t.head h).dogStatus = some s) (hne : s ≠ s') :
    headIs t s' = false := by
  rw [headIs_of_head? (List.head?_eq_head h), hs]
  simp [hne]

theorem lastIs_false_of_lastIs {t : List Person} {s s' : String}
    (h : lastIs t s = true) (hne : s ≠ s') : lastIs t s' = false := by
  unfold lastIs at h ⊢
  cases ht : t.getLast? with
  | none => rfl
  | some x =>
    rw [ht] at h
    simp only [beq_iff_eq] at h
    simp [h, hne]

theorem no_status_of_any_false {t : List Person} {pr : Person → Bool}
    (h : t.any pr = false) {p : Person} (hp : p ∈ t) : pr p = false := by
  rw [List.any_eq_false] at h
  exact Bool.eq_false_iff.mpr (h p hp)

/-! ### Category exhaustiveness and exclusivity -/

/-- C7: every team group that, after intra-team ordering, contains at least
one member with a recognized status falls into exactly one of the eight
category buckets: the eight combined filter conditions of the source,
evaluated on the intra-team-ordered group, are exhaustive and mutually
exclusive. -/
theorem claim_C7 (g : List Person) (h : ∃ p ∈ g, classified p = true) :
    categoryCount (orderTeam g) = 1 := by
  have htne : orderTeam g ≠ [] := orderTeam_ne_nil h
  have hcl : ∀ p ∈ orderTeam g, classified p = true :=
    fun p hp => (mem_orderTeam.mp hp).2
  by_cases hA : hasAvoid (orderTeam g) = true
  · by_cases hH : hasHave (orderTeam g) = true
    · have hHf : g.filter isHave ≠ [] := by
        obtain ⟨p, hp, hip⟩ := hasHave_orderTeam.mp hH
        exact List.ne_nil_of_mem (List.mem_filter.mpr ⟨hp, hip⟩)
      rcases orderTeam_last_of_hasHave hHf with hl | hl
      · have hll : lastIs (orderTeam g) "LIKE" = false :=
          lastIs_false_of_lastIs hl (by decide)
        simp [categoryCount, catOnlyAvoid, catOnlyLike, catOnlyHave,
          catAvoidEndLike, catHaveEndLike, catHaveEndHave, catBothEndHave,
          catBothEndLike, boolNat, hA, hH, hl, hll]
      · have hlh : lastIs (orderTeam g) "HAVE" = false :=
          lastIs_false_of_lastIs hl (by decide)
        simp [categoryCount, catOnlyAvoid, catOnlyLike, catOnlyHave,
          catAvoidEndLike, catHaveEndLike, catHaveEndHave, catBothEndHave,
          catBothEndLike, boolNat, hA, hH, hl, hlh]
    · have hH' : hasHave (orderTeam g) = false := Bool.eq_false_iff.mpr hH
      have hnoH : ∀ p ∈ orderTeam g, isHave p = false :=
        fun p hp => no_status_of_any_false hH' hp
      by_cases hS : samePrefs (orderTeam g) = true
      · have hA2 := hA
        simp only [hasAvoid, List.any_eq_true] at hA2
        obtain ⟨a, ha, hia⟩ := hA2
        have hhead : (orderTeam g).head htne ∈ orderTeam g :=
          List.head_mem htne
        have hhs : ((orderTeam g).head htne).dogStatus = some "AVOID" := by
          rw [uniform_of_samePrefs hS hhead ha]
          exact isAvoid_iff.mp hia
        have h1 := headIs_true_of_status htne hhs
        have h2 := headIs_false_of_status htne hhs
          (show "AVOID" ≠ "LIKE" by decide)
        have h3 := headIs_false_of_status htne hhs
          (show "AVOID" ≠ "HAVE" by decide)
        simp [categoryCount, catOnlyAvoid, catOnlyLike, catOnlyHave,
          catAvoidEndLike, catHaveEndLike, catHaveEndHave, catBothEndHave,
          catBothEndLike, boolNat, hA, hH', hS, h1, h2, h3]
      · have hS' : samePrefs (orderTeam g) = false := Bool.eq_false_iff.mpr hS
        have hHfe : g.filter isHave = [] := by
          rw [List.filter_eq_nil_iff]
          intro p hp hip
          have hpt : p ∈ orderTeam g :=
            mem_orderTeam.mpr ⟨hp, by simp [classified, hip]⟩
          have := hnoH p hpt
          rw [hip] at this
          cases this
        have hLfe : g.filter isLike ≠ [] := by
          intro hnil
          rw [List.filter_eq_nil_iff] at hnil
          have huni : ∀ p ∈ orderTeam g, p.dogStatus = some "AVOID" := by
            intro p hp
            rcases classified_cases (hcl p hp) with hs | hs | hs
            · exact hs
            · exact absurd (isLike_of_status hs).2.1
                (hnil p (mem_orderTeam.mp hp).1)
            · have := hnoH p hp
              rw [(isHave_of_status hs).2.2] at this
              cases this
          exact hS (samePrefs_of_uniform huni)
        have hl := orderTeam_last_of_like hHfe hLfe
        have hlh : lastIs (orderTeam g) "HAVE" = false :=
          lastIs_false_of_lastIs hl (by decide)
        simp [categoryCount, catOnlyAvoid, catOnlyLike, catOnlyHave,
          catAvoidEndLike, catHaveEndLike, catHaveEndHave, catBothEndHave,
          catBothEndLike, boolNat, hA, hH', hS', hl, hlh]
  · have hA' : hasAvoid (orderTeam g) = false := Bool.eq_false_iff.mpr hA
    have hnoA : ∀ p ∈ orderTeam g, isAvoid p = false :=
      fun p hp => no_status_of_any_false hA' hp
    by_cases hH : hasHave (orderTeam g) = true
    · by_cases hS : samePrefs (orderTeam g) = true
      · have hH2 := hH
        simp only [hasHave, List.any_eq_true] at hH2
        obtain ⟨a, ha, hia⟩ := hH2
        have hhead : (orderTeam g).head htne ∈ orderTeam g :=
          List.head_mem htne
        have hhs : ((orderTeam g).head htne).dogStatus = some "HAVE" := by
          rw [uniform_of_samePrefs hS hhead ha]
          exact isHave_iff.mp hia
        have h1 := headIs_true_of_status htne hhs
        have h2 := headIs_false_of_status htne hhs
          (show "HAVE" ≠ "AVOID" by decide)
        have h3 := headIs_false_of_status htne hhs
          (show "HAVE" ≠ "LIKE" by decide)
        simp [categoryCount, catOnlyAvoid, catOnlyLike, catOnlyHave,
          catAvoidEndLike, catHaveEndLike, catHaveEndHave, catBothEndHave,
          catBothEndLike, boolNat, hA', hH, hS, h1, h2, h3]
      · have hS' : samePrefs (orderTeam g) = false := Bool.eq_false_iff.mpr hS
        have hHf : g.filter isHave ≠ [] := by
          obtain ⟨p, hp, hip⟩ := hasHave_orderTeam.mp hH
          exact List.ne_nil_of_mem (List.mem_filter.mpr ⟨hp, hip⟩)
        rcases orderTeam_last_of_hasHave hHf with hl | hl
        · have hll : lastIs (orderTeam g) "LIKE" = false :=
            lastIs_false_of_lastIs hl (by decide)
          simp [categoryCount, catOnlyAvoid, catOnlyLike, catOnlyHave,
            catAvoidEndLike, catHaveEndLike, catHaveEndHave, catBothEndHave,
            catBothEndLike, boolNat, hA', hH, hS', hl, hll]
        · have hlh : lastIs (orderTeam g) "HAVE" = false :=
            lastIs_false_of_lastIs hl (by decide)
          simp [categoryCount, catOnlyAvoid, catOnlyLike, catOnlyHave,
            catAvoidEndLike, catHaveEndLike, catHaveEndHave, catBothEndHave,
            catBothEndLike, boolNat, hA', hH, hS', hl, hlh]
    · have hH' : hasHave (orderTeam g) = false := Bool.eq_false_iff.mpr hH
      have hnoH : ∀ p ∈ orderTeam g, isHave p = false :=
        fun p hp => no_status_of_any_false hH' hp
      have huni : ∀ p ∈ orderTeam g, p.dogStatus = some "LIKE" := by
        intro p hp
        rcases classified_cases (hcl p hp) with hs | hs | hs
        · have := hnoA p hp
          rw [(isAvoid_of_status hs).1] at this
          cases this
        · exact hs
        · have := hnoH p hp
          rw [(isHave_of_status hs).2.2] at this
          cases this
      have hS : samePrefs (orderTeam g) = true := samePrefs_of_uniform huni
      have hhs : ((orderTeam g).head htne).dogStatus = some "LIKE" :=
        huni _ (List.head_mem htne)
      have h1 := headIs_true_of_status htne hhs
      have h2 := headIs_false_of_status htne hhs
        (show "LIKE" ≠ "AVOID" by decide)
      have h3 := headIs_false_of_status htne hhs
        (show "LIKE" ≠ "HAVE" by decide)
      simp [categoryCount, catOnlyAvoid, catOnlyLike, catOnlyHave,
        catAvoidEndLike, catHaveEndLike, catHaveEndHave, catBothEndHave,
        catBothEndLike, boolNat, hA', hH', hS, h1, h2, h3]

/-! ### Middle-block lemmas -/

theorem middleWhile_eq_spec (bhe ol hel : List (String × List Person)) :
    ∀ i j k, middleWhile bhe ol hel i j k =
      middleSpecLoop (bhe.drop i) (ol.drop j) (hel.drop k) := by
  intro i j k
  induction i, j, k using middleWhile.induct bhe ol hel with
  | case1 i j k hc hj ih1 ih2 =>
    have ej : (ol.drop j).take 1 = [ol[j]] := by
      rw [List.drop_eq_getElem_cons hj]
      rfl
    rw [middleWhile, dif_pos hc, dif_pos hj]
    by_cases hi : i < bhe.length
    · have ei : (bhe.drop i).take 1 = [bhe[i]] := by
        rw [List.drop_eq_getElem_cons hi]
        rfl
      rw [dif_pos hi, ih1 hi, ej, ei, List.drop_eq_getElem_cons hi,
        List.drop_eq_getElem_cons hj]
      simp only [middleSpecLoop, List.cons_append, List.nil_append]
    · rw [dif_neg hi, ih2, ej, List.drop_eq_nil_of_le (Nat.le_of_not_lt hi),
        List.drop_eq_getElem_cons hj]
      simp only [middleSpecLoop, List.cons_append, List.nil_append]
  | case2 i j k hc hj hk ih1 ih2 =>
    have ek : (hel.drop k).take 1 = [hel[k]] := by
      rw [List.drop_eq_getElem_cons hk]
      rfl
    rw [middleWhile, dif_pos hc, dif_neg hj, dif_pos hk]
    by_cases hi : i < bhe.length
    · have ei : (bhe.drop i).take 1 = [bhe[i]] := by
        rw [List.drop_eq_getElem_cons hi]
        rfl
      rw [dif_pos hi, ih1 hi, ek, ei,
        List.drop_eq_nil_of_le (Nat.le_of_not_lt hj),
        List.drop_eq_getElem_cons hi, List.drop_eq_getElem_cons hk]
      simp only [middleSpecLoop, List.cons_append, List.nil_append]
    · rw [dif_neg hi, ih2, ek, List.drop_eq_nil_of_le (Nat.le_of_not_lt hj),
        List.drop_eq_nil_of_le (Nat.le_of_not_lt hi),
        List.drop_eq_getElem_cons hk]
      simp only [middleSpecLoop, List.cons_append, List.nil_append]
  | case3 i j k hc hj hk ih =>
    have hi : i < bhe.length := by
      rcases hc with h | h | h
      · exact h
      · exact absurd h hj
      · exact absurd h hk
    have ei : (bhe.drop i).take 1 = [bhe[i]] := by
      rw [List.drop_eq_getElem_cons hi]
      rfl
    rw [middleWhile, dif_pos hc, dif_neg hj, dif_neg hk, ih, ei,
      List.drop_eq_nil_of_le (Nat.le_of_not_lt hj),
      List.drop_eq_nil_of_le (Nat.le_of_not_lt hk),
      List.drop_eq_getElem_cons hi]
    simp only [middleSpecLoop, List.cons_append, List.nil_append]
  | case4 i j k hc =>
    rw [middleWhile, dif_neg hc]
    push_neg at hc
    rw [List.drop_eq_nil_of_le hc.1, List.drop_eq_nil_of_le hc.2.1,
      List.drop_eq_nil_of_le hc.2.2]
    simp only [middleSpecLoop]

theorem teamsInMiddle_eq_spec (bhe ol hel : List (String × List Person)) :
    teamsInMiddle bhe ol hel = teamsInMiddleSpec bhe ol hel := by
  cases bhe with
  | nil => simp [teamsInMiddle, teamsInMiddleSpec]
  | cons b bs =>
    unfold teamsInMiddle teamsInMiddleSpec
    rw [if_pos (by simp)]
    rw [middleWhile_eq_spec]
    simp

theorem middleSpecLoop_perm :
    ∀ bhe ol hel : List (String × List Person),
      (middleSpecLoop bhe ol hel).Perm ((bhe ++ ol) ++ hel) := by
  intro bhe ol hel
  induction bhe, ol, hel using middleSpecLoop.induct with
  | case1 => simp [middleSpecLoop]
  | case2 o os hel ih =>
    simp only [middleSpecLoop, List.nil_append] at *
    exact ih.cons o
  | case3 h hs ih =>
    simp only [middleSpecLoop, List.nil_append] at *
    exact ih.cons h
  | case4 b bs o os hel ih =>
    simp only [middleSpecLoop]
    calc o :: b :: middleSpecLoop bs os hel
        ~ o :: b :: ((bs ++ os) ++ hel) := (ih.cons b).cons o
      _ ~ b :: o :: ((bs ++ os) ++ hel) := List.Perm.swap b o _
      _ ~ b :: ((bs ++ (o :: os)) ++ hel) := List.Perm.cons b (by
            rw [List.append_assoc, List.append_assoc]
            exact List.perm_middle.symm)
      _ = ((b :: bs) ++ (o :: os)) ++ hel := rfl
  | case5 b bs h hs ih =>
    simp only [middleSpecLoop, List.append_nil] at *
    calc h :: b :: middleSpecLoop bs [] hs
        ~ h :: b :: (bs ++ hs) := (ih.cons b).cons h
      _ ~ b :: h :: (bs ++ hs) := List.Perm.swap b h _
      _ ~ b :: (bs ++ (h :: hs)) := List.Perm.cons b List.perm_middle.symm
      _ = (b :: bs) ++ (h :: hs) := rfl
  | case6 b bs ih =>
    simp only [middleSpecLoop, List.append_nil] at *
    exact ih.cons b

theorem teamsInMiddle_perm (bhe ol hel : List (String × List Person)) :
    (teamsInMiddle bhe ol hel).Perm ((bhe ++ ol) ++ hel) := by
  rw [teamsInMiddle_eq_spec]
  cases bhe with
  | nil =>
    simp only [teamsInMiddleSpec, List.nil_append]
    exact (List.Perm.refl _)
  | cons b bs =>
    simp only [teamsInMiddleSpec]
    exact (middleSpecLoop_perm bs ol hel).cons b

/-! ### Grouping lemmas -/

theorem teamKeysOf_nodup : ∀ people : List Person, (teamKeysOf people).Nodup
  | [] => List.nodup_nil
  | p :: ps => by
    simp only [teamKeysOf, List.nodup_cons]
    refine ⟨?_, (teamKeysOf_nodup ps).filter _⟩
    intro hmem
    have := (List.mem_filter.mp hmem).2
    simp at this

theorem mem_teamKeysOf : ∀ {people : List Person} {p : Person}, p ∈ people →
    teamKey p ∈ teamKeysOf people := by
  intro people
  induction people with
  | nil => intro p h; cases h
  | cons q ps ih =>
    intro p h
    rcases List.mem_cons.mp h with rfl | h
    · exact List.mem_cons_self _ _
    · by_cases hk : teamKey p = teamKey q
      · rw [hk]
        exact List.mem_cons_self _ _
      · refine List.mem_cons_of_mem _ (List.mem_filter.mpr ⟨ih h, ?_⟩)
        simp [hk]

theorem teamKeysOf_mem_exists : ∀ {people : List Person} {k : String},
    k ∈ teamKeysOf people → ∃ p ∈ people, teamKey p = k := by
  intro people
  induction people with
  | nil => intro k h; cases h
  | cons q ps ih =>
    intro k h
    rcases List.mem_cons.mp h with rfl | h
    · exact ⟨q, List.mem_cons_self _ _, rfl⟩
    · obtain ⟨p, hp, hk⟩ := ih (List.mem_of_mem_filter h)
      exact ⟨p, List.mem_cons_of_mem _ hp, hk⟩

theorem group_ne_nil {people : List Person} {k : String}
    (h : k ∈ teamKeysOf people) :
    people.filter (fun p => teamKey p == k) ≠ [] := by
  obtain ⟨p, hp, hk⟩ := teamKeysOf_mem_exists h
  exact List.ne_nil_of_mem (List.mem_filter.mpr ⟨hp, by simp [hk]⟩)

theorem flatten_filter_keys_perm :
    ∀ (keys : List String) (l : List Person), keys.Nodup →
      (∀ p ∈ l, teamKey p ∈ keys) →
      ((keys.map (fun k => l.filter (fun p => teamKey p == k))).flatten).Perm l
  | [], l, _, hcov => by
    have hl : l = [] := by
      cases l with
      | nil => rfl
      | cons p ps => cases hcov p (List.mem_cons_self _ _)
    simp [hl]
  | k :: ks, l, hnd, hcov => by
    simp only [List.map_cons, List.flatten_cons]
    have hnd' : ks.Nodup := (List.nodup_cons.mp hnd).2
    have hknot : k ∉ ks := (List.nodup_cons.mp hnd).1
    have hmap : ks.map (fun k2 => l.filter (fun p => teamKey p == k2)) =
        ks.map (fun k2 => (l.filter (fun p => !(teamKey p == k))).filter
          (fun p => teamKey p == k2)) := by
      refine List.map_congr_left ?_
      intro k2 hk2
      rw [List.filter_filter]
      refine (List.filter_congr ?_).symm
      intro p _
      cases hpk : teamKey p == k2
      · simp
      · have : teamKey p = k2 := by simpa using hpk
        have hne2 : ¬(teamKey p == k) = true := by
          simp only [beq_iff_eq, this]
          intro hcontra
          exact hknot (hcontra ▸ hk2)
        simp [Bool.eq_false_iff.mpr hne2]
    have hcov' : ∀ p ∈ l.filter (fun p => !(teamKey p == k)),
        teamKey p ∈ ks := by
      intro p hp
      have hpl := List.mem_of_mem_filter hp
      have hppred := (List.mem_filter.mp hp).2
      rcases List.mem_cons.mp (hcov p hpl) with heq | hmem
      · rw [heq] at hppred
        simp at hppred
      · exact hmem
    have ihp := flatten_filter_keys_perm ks
      (l.filter (fun p => !(teamKey p == k))) hnd' hcov'
    calc l.filter (fun p => teamKey p == k) ++
          (ks.map (fun k2 => l.filter (fun p => teamKey p == k2))).flatten
        = l.filter (fun p => teamKey p == k) ++
            (ks.map (fun k2 => (l.filter (fun p => !(teamKey p == k))).filter
              (fun p => teamKey p == k2))).flatten := by rw [hmap]
      _ ~ l.filter (fun p => teamKey p == k) ++
            l.filter (fun p => !(teamKey p == k)) :=
          List.Perm.append_left _ ihp
      _ ~ l := List.filter_append_perm _ l

theorem teamGroups_flatten_perm (people : List Person) :
    (((teamGroups people).map Prod.snd).flatten).Perm people := by
  unfold teamGroups
  rw [List.map_map]
  exact flatten_filter_keys_perm (teamKeysOf people) people
    (teamKeysOf_nodup people) (fun p hp => mem_teamKeysOf hp)

theorem orderedTeams_map_fst (people : List Person) :
    (orderedTeams people).map Prod.fst = teamKeysOf people := by
  unfold orderedTeams teamGroups
  rw [List.map_map, List.map_map]
  exact List.map_id _

theorem mem_orderedTeams {people : List Person}
    {kt : String × List Person} (h : kt ∈ orderedTeams people) :
    kt.2 = orderTeam (people.filter (fun p => teamKey p == kt.1)) ∧
      kt.1 ∈ teamKeysOf people := by
  unfold orderedTeams teamGroups at h
  rw [List.map_map] at h
  obtain ⟨k, hk, heq⟩ := List.mem_map.mp h
  rw [← heq]
  exact ⟨rfl, hk⟩

theorem orderedTeams_classified {people : List Person}
    {kt : String × List Person} (h : kt ∈ orderedTeams people) :
    ∀ p ∈ kt.2, classified p = true := by
  intro p hp
  rw [(mem_orderedTeams h).1] at hp
  exact (mem_orderTeam.mp hp).2

theorem orderedTeams_member_key {people : List Person}
    {kt : String × List Person} (h : kt ∈ orderedTeams people)
    {p : Person} (hp : p ∈ kt.2) : teamKey p = kt.1 := by
  rw [(mem_orderedTeams h).1] at hp
  have := (List.mem_filter.mp (mem_orderTeam.mp hp).1).2
  simpa using this

/-! ### Per-team classification facts -/

theorem team_last_dichotomy {people : List Person}
    {kt : String × List Person} (hts : kt ∈ orderedTeams people)
    (hH : hasHave kt.2 = true) :
    (!lastIs kt.2 "HAVE") = lastIs kt.2 "LIKE" := by
  have hg := (mem_orderedTeams hts).1
  rw [hg] at hH ⊢
  have hHf : ((people.filter (fun p => teamKey p == kt.1)).filter isHave) ≠
      [] := by
    obtain ⟨p, hp, hip⟩ := hasHave_orderTeam.mp hH
    exact List.ne_nil_of_mem (List.mem_filter.mpr ⟨hp, hip⟩)
  rcases orderTeam_last_of_hasHave hHf with h | h
  · rw [h, lastIs_false_of_lastIs h (by decide)]
    rfl
  · rw [h, lastIs_false_of_lastIs h (by decide)]
    rfl

theorem team_all_like_same {people : List Person}
    {kt : String × List Person} (hts : kt ∈ orderedTeams people)
    (hA : hasAvoid kt.2 = false) (hH : hasHave kt.2 = false) :
    samePrefs kt.2 = true := by
  have hcl := orderedTeams_classified hts
  have huni : ∀ p ∈ kt.2, p.dogStatus = some "LIKE" := by
    intro p hp
    rcases classified_cases (hcl p hp) with hs | hs | hs
    · have := no_status_of_any_false hA hp
      rw [(isAvoid_of_status hs).1] at this
      cases this
    · exact hs
    · have := no_status_of_any_false hH hp
      rw [(isHave_of_status hs).2.2] at this
      cases this
  exact samePrefs_of_uniform huni

theorem team_mixed_noHave_lastLike {people : List Person}
    {kt : String × List Person} (hts : kt ∈ orderedTeams people)
    (hH : hasHave kt.2 = false) (hS : samePrefs kt.2 = false) :
    lastIs kt.2 "LIKE" = true := by
  have hg := (mem_orderedTeams hts).1
  have hcl := orderedTeams_classified hts
  have hHfe : ((people.filter (fun p => teamKey p == kt.1)).filter isHave) =
      [] := by
    rw [List.filter_eq_nil_iff]
    intro p hp hip
    have hpt : p ∈ kt.2 := by
      rw [hg]
      exact mem_orderTeam.mpr ⟨hp, by simp [classified, hip]⟩
    have := no_status_of_any_false hH hpt
    rw [hip] at this
    cases this
  have hLfe : ((people.filter (fun p => teamKey p == kt.1)).filter isLike) ≠
      [] := by
    intro hnil
    rw [List.filter_eq_nil_iff] at hnil
    have huni : ∀ p ∈ kt.2, p.dogStatus = some "AVOID" := by
      intro p hp
      rcases classified_cases (hcl p hp) with hs | hs | hs
      · exact hs
      · refine absurd (isLike_of_status hs).2.1 (hnil p ?_)
        have := mem_orderTeam.mp (hg ▸ hp)
        exact this.1
      · have := no_status_of_any_false hH hp
        rw [(isHave_of_status hs).2.2] at this
        cases this
    rw [samePrefs_of_uniform huni] at hS
    cases hS
  rw [hg]
  exact orderTeam_last_of_like hHfe hLfe

theorem team_head_cases {people : List Person}
    {kt : String × List Person} (hts : kt ∈ orderedTeams people)
    (hkne : kt.2 ≠ []) :
    ∃ s, (kt.2.head hkne).dogStatus = some s ∧
      (s = "AVOID" ∨ s = "LIKE" ∨ s = "HAVE") := by
  have hcl := orderedTeams_classified hts
  rcases classified_cases (hcl _ (List.head_mem hkne)) with h | h | h
  · exact ⟨"AVOID", h, Or.inl rfl⟩
  · exact ⟨"LIKE", h, Or.inr (Or.inl rfl)⟩
  · exact ⟨"HAVE", h, Or.inr (Or.inr rfl)⟩

/-! ### Bucket partition -/

theorem emittedTeams_perm (people : List Person)
    (hne : ∀ kt ∈ remainingTeams (orderedTeams people), kt.2 ≠ []) :
    (emittedTeams (orderedTeams people)).Perm (orderedTeams people) := by
  have hBEL : teamsWithBothEndLike (orderedTeams people) =
      (teamsWithAvoidAndHave (orderedTeams people)).filter
        (fun kt => !lastIs kt.2 "HAVE") := by
    unfold teamsWithBothEndLike
    refine List.filter_congr ?_
    intro kt hkt
    have hH : hasHave kt.2 = true := by
      have := (List.mem_filter.mp hkt).2
      simp only [Bool.and_eq_true] at this
      exact this.2
    exact (team_last_dichotomy (List.mem_of_mem_filter hkt) hH).symm
  have hOL : ((teamsSamePreferences (orderedTeams people)).filter
      (fun kt => !headIs kt.2 "AVOID")).filter
        (fun kt => headIs kt.2 "LIKE") =
      teamsOnlyLike (orderedTeams people) := by
    rw [List.filter_filter]
    unfold teamsOnlyLike
    refine List.filter_congr ?_
    intro kt hkt
    have hktRT : kt ∈ remainingTeams (orderedTeams people) :=
      List.mem_of_mem_filter hkt
    have hktts : kt ∈ orderedTeams people := List.mem_of_mem_filter hktRT
    have hkne : kt.2 ≠ [] := hne kt hktRT
    obtain ⟨s, hs, hcases⟩ := team_head_cases hktts hkne
    rcases hcases with rfl | rfl | rfl
    · rw [headIs_false_of_status hkne hs (show "AVOID" ≠ "LIKE" by decide)]
      simp
    · rw [headIs_true_of_status hkne hs,
        headIs_false_of_status hkne hs (show "LIKE" ≠ "AVOID" by decide)]
      rfl
    · rw [headIs_false_of_status hkne hs (show "HAVE" ≠ "LIKE" by decide)]
      simp
  have hOH : ((teamsSamePreferences (orderedTeams people)).filter
      (fun kt => !headIs kt.2 "AVOID")).filter
        (fun kt => !headIs kt.2 "LIKE") =
      teamsOnlyHave (orderedTeams people) := by
    rw [List.filter_filter]
    unfold teamsOnlyHave
    refine List.filter_congr ?_
    intro kt hkt
    have hktRT : kt ∈ remainingTeams (orderedTeams people) :=
      List.mem_of_mem_filter hkt
    have hktts : kt ∈ orderedTeams people := List.mem_of_mem_filter hktRT
    have hkne : kt.2 ≠ [] := hne kt hktRT
    obtain ⟨s, hs, hcases⟩ := team_head_cases hktts hkne
    rcases hcases with rfl | rfl | rfl
    · rw [headIs_true_of_status hkne hs,
        headIs_false_of_status hkne hs (show "AVOID" ≠ "LIKE" by decide),
        headIs_false_of_status hkne hs (show "AVOID" ≠ "HAVE" by decide)]
      rfl
    · rw [headIs_true_of_status hkne hs,
        headIs_false_of_status hkne hs (show "LIKE" ≠ "AVOID" by decide),
        headIs_false_of_status hkne hs (show "LIKE" ≠ "HAVE" by decide)]
      rfl
    · rw [headIs_true_of_status hkne hs,
        headIs_false_of_status hkne hs (show "HAVE" ≠ "AVOID" by decide),
        headIs_false_of_status hkne hs (show "HAVE" ≠ "LIKE" by decide)]
      rfl
  have hAELc : (teamsDifferentPreferences (orderedTeams people)).filter
      (fun kt =>
        !(hasAvoid kt.2 && !hasHave kt.2 && lastIs kt.2 "LIKE")) =
      (teamsDifferentPreferences (orderedTeams people)).filter
        (fun kt => hasHave kt.2 && !hasAvoid kt.2) := by
    refine List.filter_congr ?_
    intro kt hkt
    have hktRT : kt ∈ remainingTeams (orderedTeams people) :=
      List.mem_of_mem_filter hkt
    have hktts : kt ∈ orderedTeams people := List.mem_of_mem_filter hktRT
    have hSf : samePrefs kt.2 = false := by
      have := (List.mem_filter.mp hkt).2
      simpa using this
    have hnb : (hasAvoid kt.2 && hasHave kt.2) = false := by
      have h2 := (List.mem_filter.mp hktRT).2
      cases hcontra : (hasAvoid kt.2 && hasHave kt.2)
      · rfl
      · rw [hcontra] at h2
        simp at h2
    cases hA : hasAvoid kt.2 <;> cases hH : hasHave kt.2
    · have := team_all_like_same hktts hA hH
      rw [this] at hSf
      cases hSf
    · simp
    · have hlast := team_mixed_noHave_lastLike hktts hH hSf
      rw [hlast]
      simp
    · rw [hA, hH] at hnb
      simp at hnb
  have hHEL : ((teamsDifferentPreferences (orderedTeams people)).filter
      (fun kt => hasHave kt.2 && !hasAvoid kt.2)).filter
        (fun kt => lastIs kt.2 "LIKE") =
      teamsHaveEndLike (orderedTeams people) := by
    rw [List.filter_filter]
    unfold teamsHaveEndLike
    refine List.filter_congr ?_
    intro kt _
    cases hasHave kt.2 <;> cases hasAvoid kt.2 <;>
      cases lastIs kt.2 "LIKE" <;> rfl
  have hHEH : ((teamsDifferentPreferences (orderedTeams people)).filter
      (fun kt => hasHave kt.2 && !hasAvoid kt.2)).filter
        (fun kt => !lastIs kt.2 "LIKE") =
      teamsHaveEndHave (orderedTeams people) := by
    rw [List.filter_filter]
    unfold teamsHaveEndHave
    refine List.filter_congr ?_
    intro kt hkt
    have hktts : kt ∈ orderedTeams people :=
      List.mem_of_mem_filter (List.mem_of_mem_filter hkt)
    cases hH : hasHave kt.2
    · cases hasAvoid kt.2 <;> cases lastIs kt.2 "LIKE" <;>
        cases lastIs kt.2 "HAVE" <;> rfl
    · have hdich := team_last_dichotomy hktts hH
      have hlh : lastIs kt.2 "HAVE" = !lastIs kt.2 "LIKE" := by
        rw [← hdich, Bool.not_not]
      rw [hlh]
      cases lastIs kt.2 "LIKE" <;> cases hasAvoid kt.2 <;> rfl
  refine List.perm_iff_count.mpr fun x => ?_
  unfold emittedTeams
  simp only [List.count_append]
  have g1 := (List.filter_append_perm
    (fun kt => hasAvoid kt.2 && hasHave kt.2)
    (orderedTeams people)).count_eq x
  simp only [List.count_append] at g1
  rw [show List.filter (fun kt => hasAvoid kt.2 && hasHave kt.2)
      (orderedTeams people) = teamsWithAvoidAndHave (orderedTeams people)
      from rfl] at g1
  rw [show List.filter (fun kt => !(hasAvoid kt.2 && hasHave kt.2))
      (orderedTeams people) = remainingTeams (orderedTeams people)
      from rfl] at g1
  have g2 := (List.filter_append_perm (fun kt => lastIs kt.2 "HAVE")
    (teamsWithAvoidAndHave (orderedTeams people))).count_eq x
  simp only [List.count_append] at g2
  rw [show List.filter (fun kt => lastIs kt.2 "HAVE")
      (teamsWithAvoidAndHave (orderedTeams people)) =
      teamsWithBothEndHave (orderedTeams people) from rfl] at g2
  rw [← hBEL] at g2
  have g3 := (List.filter_append_perm (fun kt => samePrefs kt.2)
    (remainingTeams (orderedTeams people))).count_eq x
  simp only [List.count_append] at g3
  rw [show List.filter (fun kt => samePrefs kt.2)
      (remainingTeams (orderedTeams people)) =
      teamsSamePreferences (orderedTeams people) from rfl] at g3
  rw [show List.filter (fun kt => !samePrefs kt.2)
      (remainingTeams (orderedTeams people)) =
      teamsDifferentPreferences (orderedTeams people) from rfl] at g3
  have g4 := (List.filter_append_perm (fun kt => headIs kt.2 "AVOID")
    (teamsSamePreferences (orderedTeams people))).count_eq x
  simp only [List.count_append] at g4
  rw [show List.filter (fun kt => headIs kt.2 "AVOID")
      (teamsSamePreferences (orderedTeams people)) =
      teamsOnlyAvoid (orderedTeams people) from rfl] at g4
  have g5 := (List.filter_append_perm (fun kt => headIs kt.2 "LIKE")
    ((teamsSamePreferences (orderedTeams people)).filter
      (fun kt => !headIs kt.2 "AVOID"))).count_eq x
  simp only [List.count_append] at g5
  rw [hOL, hOH] at g5
  have g6 := (List.filter_append_perm
    (fun kt => hasAvoid kt.2 && !hasHave kt.2 && lastIs kt.2 "LIKE")
    (teamsDifferentPreferences (orderedTeams people))).count_eq x
  simp only [List.count_append] at g6
  rw [show List.filter
      (fun kt => hasAvoid kt.2 && !hasHave kt.2 && lastIs kt.2 "LIKE")
      (teamsDifferentPreferences (orderedTeams people)) =
      teamsAvoidEndLike (orderedTeams people) from rfl] at g6
  rw [hAELc] at g6
  have g7 := (List.filter_append_perm (fun kt => lastIs kt.2 "LIKE")
    ((teamsDifferentPreferences (orderedTeams people)).filter
      (fun kt => hasHave kt.2 && !hasAvoid kt.2))).count_eq x
  simp only [List.count_append] at g7
  rw [hHEL, hHEH] at g7
  have g8 := (teamsInMiddle_perm (teamsWithBothEndHave (orderedTeams people))
    (teamsOnlyLike (orderedTeams people))
    (teamsHaveEndLike (orderedTeams people))).count_eq x
  simp only [List.count_append] at g8
  omega

/-! ### Success and failure of `calculateDeskLayout` -/

theorem mem_teamGroups {people : List Person}
    {kt : String × List Person} (h : kt ∈ teamGroups people) :
    kt.2 = people.filter (fun p => teamKey p == kt.1) ∧
      kt.1 ∈ teamKeysOf people := by
  unfold teamGroups at h
  obtain ⟨k, hk, heq⟩ := List.mem_map.mp h
  rw [← heq]
  exact ⟨rfl, hk⟩

theorem calculateDeskLayout_eq_some {people : List Person}
    (hne : ∀ kt ∈ remainingTeams (orderedTeams people), kt.2 ≠ []) :
    calculateDeskLayout people =
      some (((emittedTeams (orderedTeams people)).map Prod.snd).flatten) := by
  unfold calculateDeskLayout
  by_cases hp : people.length = 0
  · rw [if_pos hp]
    have hpe : people = [] := List.length_eq_zero.mp hp
    subst hpe
    rfl
  · rw [if_neg hp]
    have hguard : (remainingTeams (orderedTeams people)).any
        (fun kt => kt.2.isEmpty) = false := by
      rw [List.any_eq_false]
      intro kt hkt hcontra
      exact hne kt hkt (by simpa using hcontra)
    simp [hguard]

theorem calculateDeskLayout_eq_none {people : List Person}
    (h : ∃ kt ∈ remainingTeams (orderedTeams people), kt.2 = []) :
    calculateDeskLayout people = none := by
  obtain ⟨kt, hkt, hk2⟩ := h
  have hplen : people.length ≠ 0 := by
    intro h0
    have hpe : people = [] := List.length_eq_zero.mp h0
    subst hpe
    simp [remainingTeams, orderedTeams, teamGroups, teamKeysOf] at hkt
  unfold calculateDeskLayout
  rw [if_neg hplen]
  have hguard : (remainingTeams (orderedTeams people)).any
      (fun kt => kt.2.isEmpty) = true := by
    rw [List.any_eq_true]
    exact ⟨kt, hkt, by simp [hk2]⟩
  simp [hguard]

theorem calculateDeskLayout_some_inv {people : List Person}
    {out : List Person} (h : calculateDeskLayout people = some out) :
    (∀ kt ∈ remainingTeams (orderedTeams people), kt.2 ≠ []) ∧
    out = ((emittedTeams (orderedTeams people)).map Prod.snd).flatten := by
  by_cases hg : ∃ kt ∈ remainingTeams (orderedTeams people), kt.2 = []
  · rw [calculateDeskLayout_eq_none hg] at h
    cases h
  · push_neg at hg
    refine ⟨hg, ?_⟩
    rw [calculateDeskLayout_eq_some hg] at h
    exact (Option.some_inj.mp h).symm

theorem flatten_map_perm_of_forall {l : List (String × List Person)}
    {f g : String × List Person → List Person}
    (h : ∀ kt ∈ l, (f kt).Perm (g kt)) :
    ((l.map f).flatten).Perm ((l.map g).flatten) := by
  induction l with
  | nil => exact List.Perm.refl _
  | cons a l ih =>
    simp only [List.map_cons, List.flatten_cons]
    exact (h a (List.mem_cons_self _ _)).append
      (ih fun kt hkt => h kt (List.mem_cons_of_mem _ hkt))

/-! ### Contiguity of team blocks -/

theorem flatten_blocks_contig :
    ∀ bs : List (String × List Person),
      (∀ kt ∈ bs, ∀ p ∈ kt.2, teamKey p = kt.1) →
      ((bs.map Prod.fst).Nodup) →
      ∀ a b c : Person, [a, b, c].Sublist ((bs.map Prod.snd).flatten) →
        teamKey a = teamKey c → teamKey b = teamKey a := by
  intro bs
  induction bs with
  | nil =>
    intro _ _ a b c hsub _
    simp at hsub
  | cons kt bs ih =>
    intro huni hnd a b c hsub hac
    simp only [List.map_cons, List.flatten_cons] at hsub
    rw [List.sublist_append_iff] at hsub
    obtain ⟨l1, l2, heq, hs1, hs2⟩ := hsub
    have hmemblock : ∀ q ∈ kt.2, teamKey q = kt.1 :=
      huni kt (List.mem_cons_self _ _)
    have hmemflat : ∀ q, q ∈ (bs.map Prod.snd).flatten →
        teamKey q ∈ bs.map Prod.fst := by
      intro q hq
      rw [List.mem_flatten] at hq
      obtain ⟨s, hsmem, hqx⟩ := hq
      obtain ⟨kt2, hkt2, hs2eq⟩ := List.mem_map.mp hsmem
      rw [← hs2eq] at hqx
      rw [huni kt2 (List.mem_cons_of_mem _ hkt2) q hqx]
      exact List.mem_map_of_mem _ hkt2
    have hknotin : kt.1 ∉ bs.map Prod.fst := (List.nodup_cons.mp hnd).1
    match l1, heq with
    | [], heq =>
      rw [List.nil_append] at heq
      subst heq
      exact ih (fun kt2 hkt2 => huni kt2 (List.mem_cons_of_mem _ hkt2))
        (List.nodup_cons.mp hnd).2 a b c hs2 hac
    | [x], heq =>
      simp only [List.cons_append, List.nil_append] at heq
      injection heq with hax heq2
      subst hax
      subst heq2
      have hcmem : c ∈ (bs.map Prod.snd).flatten :=
        hs2.subset (by simp)
      have hamem : a ∈ kt.2 := hs1.subset (by simp)
      have : teamKey c ∈ bs.map Prod.fst := hmemflat c hcmem
      rw [← hac, hmemblock a hamem] at this
      exact absurd this hknotin
    | [x, y], heq =>
      simp only [List.cons_append, List.nil_append] at heq
      injection heq with hax heq2
      injection heq2 with hby heq3
      subst hax
      subst hby
      have hamem : a ∈ kt.2 := hs1.subset (by simp)
      have hbmem : b ∈ kt.2 := hs1.subset (by simp)
      rw [hmemblock a hamem, hmemblock b hbmem]
    | x :: y :: z :: l1', heq =>
      simp only [List.cons_append] at heq
      injection heq with hax heq2
      injection heq2 with hby heq3
      subst hax
      subst hby
      have hamem : a ∈ kt.2 := hs1.subset (by simp)
      have hbmem : b ∈ kt.2 := hs1.subset (by simp)
      rw [hmemblock a hamem, hmemblock b hbmem]

/-! ### Claim theorems -/

/-- C1: for every input in which every person's dogStatus is one of AVOID,
LIKE, HAVE, `calculateDeskLayout` succeeds and its output is a permutation of
the input (same multiset of Person records) with equal length. -/
theorem claim_C1 (people : List Person)
    (hall : ∀ p ∈ people, classified p = true) :
    ∃ out, calculateDeskLayout people = some out ∧ out.Perm people ∧
      out.length = people.length := by
  have hne : ∀ kt ∈ remainingTeams (orderedTeams people), kt.2 ≠ [] := by
    intro kt hkt
    have hktts := List.mem_of_mem_filter hkt
    obtain ⟨hg, hkey⟩ := mem_orderedTeams hktts
    rw [hg]
    obtain ⟨p, hp⟩ := List.exists_mem_of_ne_nil _ (group_ne_nil hkey)
    exact orderTeam_ne_nil ⟨p, hp, hall p (List.mem_of_mem_filter hp)⟩
  have hperm : ((((emittedTeams (orderedTeams people)).map
      Prod.snd).flatten)).Perm people := by
    refine ((emittedTeams_perm people hne).map Prod.snd).flatten.trans ?_
    have h3 : ((((orderedTeams people).map Prod.snd).flatten)).Perm
        ((((teamGroups people).map Prod.snd).flatten)) := by
      unfold orderedTeams
      rw [List.map_map]
      refine flatten_map_perm_of_forall ?_
      intro kt hkt
      have hg := (mem_teamGroups hkt).1
      refine orderTeam_perm_self ?_
      intro p hp
      rw [hg] at hp
      exact hall p (List.mem_of_mem_filter hp)
    exact h3.trans (teamGroups_flatten_perm people)
  exact ⟨_, calculateDeskLayout_eq_some hne, hperm, hperm.length_eq⟩

/-- C1 witness: the permutation property at a concrete three-person,
two-team input. -/
theorem claim_C1_witness :
    ∃ out, calculateDeskLayout exC1 = some out ∧ out.Perm exC1 ∧
      out.length = exC1.length :=
  claim_C1 exC1 (by decide)

/-- C2 counterexample: a one-person team whose single member is unclassified
makes `calculateDeskLayout` abort (modeled as `none`), while the claim says a
result is returned. -/
theorem claim_C2_counterexample :
    (∃ kt ∈ teamGroups exC2, kt.2 ≠ [] ∧ ∀ p ∈ kt.2, classified p = false) ∧
    calculateDeskLayout exC2 = none := by decide

/-- C2 amended: for every input containing a team group whose members are all
unclassified, `calculateDeskLayout` does not return a result: the
classification step reads `team[0].dogStatus` of the emptied group and the
computation aborts (`none` in this embedding). -/
theorem claim_C2 (people : List Person)
    (h : ∃ kt ∈ teamGroups people, kt.2 ≠ [] ∧
      ∀ p ∈ kt.2, classified p = false) :
    calculateDeskLayout people = none := by
  obtain ⟨kt, hkt, hkne, hall⟩ := h
  obtain ⟨hg, hkey⟩ := mem_teamGroups hkt
  have hOT : orderTeam kt.2 = [] := by
    have hA : kt.2.filter isAvoid = [] := by
      rw [List.filter_eq_nil_iff]
      intro p hp hcontra
      have := hall p hp
      simp [classified, hcontra] at this
    have hL : kt.2.filter isLike = [] := by
      rw [List.filter_eq_nil_iff]
      intro p hp hcontra
      have := hall p hp
      simp [classified, hcontra] at this
    have hH : kt.2.filter isHave = [] := by
      rw [List.filter_eq_nil_iff]
      intro p hp hcontra
      have := hall p hp
      simp [classified, hcontra] at this
    rw [orderTeam_eq_few (by rw [hH]; simp), hA, hL, hH]
    rfl
  refine calculateDeskLayout_eq_none ⟨(kt.1, orderTeam kt.2), ?_, hOT⟩
  have hmem : (kt.1, orderTeam kt.2) ∈ orderedTeams people := by
    unfold orderedTeams
    exact List.mem_map.mpr ⟨kt, hkt, rfl⟩
  refine List.mem_filter.mpr ⟨hmem, ?_⟩
  rw [hOT]
  rfl

/-- C2 witness for the amended claim: a concrete input with one classified
team and one all-unclassified team is rejected. -/
theorem claim_C2_witness : calculateDeskLayout exC2w = none :=
  claim_C2 exC2w (by decide)

/-- C9 counterexample: person u1 is unclassified inside a team that has a
classified member, yet the computation does not return a result (the input
also contains an all-unclassified team), contradicting the claim for this
input. -/
theorem claim_C9_counterexample :
    ((mkP "u1" "T" none) ∈ exC9 ∧ classified (mkP "u1" "T" none) = false ∧
      (∃ kt ∈ teamGroups exC9, (mkP "u1" "T" none) ∈ kt.2 ∧
        ∃ q ∈ kt.2, classified q = true)) ∧
    calculateDeskLayout exC9 = none := by decide

/-- C9 amended: when every team group has at least one classified member, the
computation returns a result, every person in the output is classified, and
every unclassified person of the input is silently excluded from it. -/
theorem claim_C9 (people : List Person)
    (h : ∀ kt ∈ teamGroups people, ∃ q ∈ kt.2, classified q = true) :
    ∃ out, calculateDeskLayout people = some out ∧
      (∀ p ∈ out, classified p = true) ∧
      ∀ p ∈ people, classified p = false → p ∉ out := by
  have hne : ∀ kt ∈ remainingTeams (orderedTeams people), kt.2 ≠ [] := by
    intro kt hkt
    have hktts := List.mem_of_mem_filter hkt
    obtain ⟨hg, hkey⟩ := mem_orderedTeams hktts
    rw [hg]
    have hgrp : (kt.1, people.filter (fun p => teamKey p == kt.1)) ∈
        teamGroups people := by
      unfold teamGroups
      exact List.mem_map.mpr ⟨kt.1, hkey, rfl⟩
    obtain ⟨q, hq, hqc⟩ := h _ hgrp
    exact orderTeam_ne_nil ⟨q, hq, hqc⟩
  have hclOut : ∀ p ∈ ((emittedTeams (orderedTeams people)).map
      Prod.snd).flatten, classified p = true := by
    intro p hp
    rw [List.mem_flatten] at hp
    obtain ⟨s, hsmem, hps⟩ := hp
    obtain ⟨kt, hkt, hseq⟩ := List.mem_map.mp hsmem
    rw [← hseq] at hps
    have hktts : kt ∈ orderedTeams people :=
      (emittedTeams_perm people hne).subset hkt
    exact orderedTeams_classified hktts p hps
  refine ⟨_, calculateDeskLayout_eq_some hne, hclOut, ?_⟩
  intro p _ hpc hmem
  rw [hclOut p hmem] at hpc
  cases hpc

/-- C9 witness for the amended claim at a concrete two-person team with one
unclassified member. -/
theorem claim_C9_witness :
    ∃ out, calculateDeskLayout exC9w = some out ∧
      (∀ p ∈ out, classified p = true) ∧
      ∀ p ∈ exC9w, classified p = false → p ∉ out :=
  claim_C9 exC9w (by decide)

/-- C6: in any result of `calculateDeskLayout`, members of one team key are
never separated by a member of a different team key: whenever three output
entries appear in order and the outer two share a team key, the middle one
has that key as well. -/
theorem claim_C6 (people : List Person) (out : List Person)
    (hcalc : calculateDeskLayout people = some out) :
    ∀ a b c : Person, [a, b, c].Sublist out →
      teamKey a = teamKey c → teamKey b = teamKey a := by
  obtain ⟨hne, hout⟩ := calculateDeskLayout_some_inv hcalc
  subst hout
  refine flatten_blocks_contig (emittedTeams (orderedTeams people)) ?_ ?_
  · intro kt hkt
    have hktts : kt ∈ orderedTeams people :=
      (emittedTeams_perm people hne).subset hkt
    exact fun p hp => orderedTeams_member_key hktts hp
  · have hperm := (emittedTeams_perm people hne).map Prod.fst
    have hnodup : ((orderedTeams people).map Prod.fst).Nodup := by
      rw [orderedTeams_map_fst]
      exact teamKeysOf_nodup people
    exact hperm.symm.nodup hnodup

/-- C6 witness at a concrete input: the two LIKE members of team t are not
separated inside the output. -/
theorem claim_C6_witness :
    teamKey (mkP "l2" "t" (some "LIKE")) = teamKey (mkP "l1" "t" (some "LIKE")) :=
  claim_C6 exC6
    [mkP "a" "u" (some "AVOID"), mkP "l1" "t" (some "LIKE"),
      mkP "l2" "t" (some "LIKE"), mkP "h" "t" (some "HAVE")]
    (by decide)
    (mkP "l1" "t" (some "LIKE")) (mkP "l2" "t" (some "LIKE"))
    (mkP "h" "t" (some "HAVE"))
    ((List.Sublist.refl _).cons _) (by decide)

/-- C5: the middle block built by the source's index-based while loop equals,
for all bucket contents, the spec's description: starting with the first
BothEndHave team, each round appends one OnlyLike team if available, else one
HaveEndLike team if available, then the next BothEndHave team; with no
BothEndHave teams it is OnlyLike followed by HaveEndLike. -/
theorem claim_C5 (bhe ol hel : List (String × List Person)) :
    teamsInMiddle bhe ol hel = teamsInMiddleSpec bhe ol hel :=
  teamsInMiddle_eq_spec bhe ol hel

/-- C7 witness: the mixed AVOID/LIKE team satisfies exactly one category. -/
theorem claim_C7_witness : categoryCount (orderTeam exC7) = 1 :=
  claim_C7 exC7 (by decide)

/-- C3 counterexample: for a team with two HAVE and five LIKE members the
ordered team places 2 LIKE members before the first HAVE, not the 3 the
claim asserts. -/
theorem claim_C3_counterexample :
    (exC3.filter isHave).length = 2 ∧ (exC3.filter isLike).length = 5 ∧
    likeCountBeforeFirstHave (orderTeam exC3) = 2 ∧
    ¬likeCountBeforeFirstHave (orderTeam exC3) = 3 := by decide

/-- C3 amended: for a team with more than one HAVE member, the number of LIKE
members placed before the first HAVE equals floor(l/(h+1)), plus one exactly
when l mod (h+1) is positive; for h = 2 and l = 5 this is 2, not 3. -/
theorem claim_C3 (t : List Person) (h : (t.filter isHave).length > 1) :
    likeCountBeforeFirstHave (orderTeam t) =
      (t.filter isLike).length / ((t.filter isHave).length + 1) +
      if (t.filter isLike).length % ((t.filter isHave).length + 1) > 0
        then 1 else 0 := by
  obtain ⟨p, q, hs2, hHeq⟩ : ∃ p q hs2, t.filter isHave = p :: q :: hs2 := by
    match hH : t.filter isHave with
    | [] => rw [hH] at h; simp at h
    | [p] => rw [hH] at h; simp at h
    | p :: q :: hs2 => exact ⟨p, q, hs2, rfl⟩
  have hpH : isHave p = true := by
    have hmem : p ∈ t.filter isHave := by
      rw [hHeq]
      simp
    exact (List.mem_filter.mp hmem).2
  rw [likeCountBeforeFirstHave, orderTeam_eq_many h]
  have hAT : ∀ x ∈ t.filter isAvoid ++ (t.filter isLike).take
      ((t.filter isLike).length / ((t.filter isHave).length + 1) +
        if (t.filter isLike).length % ((t.filter isHave).length + 1) > 0
          then 1 else 0), (!isHave x) = true := by
    intro x hx
    rcases List.mem_append.mp hx with hx | hx
    · rw [(isAvoid_of_status (isAvoid_iff.mp (List.mem_filter.mp hx).2)).2.2]
      rfl
    · have hxl : x ∈ t.filter isLike := List.take_subset _ _ hx
      rw [(isLike_of_status (isLike_iff.mp (List.mem_filter.mp hxl).2)).2.2]
      rfl
  rw [List.takeWhile_append_of_pos hAT, hHeq]
  simp only [haveLoop]
  rw [List.takeWhile_cons_of_neg (by simp [hpH]), List.append_nil,
    List.filter_append]
  have hfA : (t.filter isAvoid).filter isLike = [] := by
    rw [List.filter_eq_nil_iff]
    intro x hx hcontra
    rw [(isAvoid_of_status (isAvoid_iff.mp (List.mem_filter.mp hx).2)).2.1]
      at hcontra
    cases hcontra
  have hfT : ((t.filter isLike).take
      ((t.filter isLike).length / ((p :: q :: hs2).length + 1) +
        if (t.filter isLike).length % ((p :: q :: hs2).length + 1) > 0
          then 1 else 0)).filter isLike =
      (t.filter isLike).take
        ((t.filter isLike).length / ((p :: q :: hs2).length + 1) +
          if (t.filter isLike).length % ((p :: q :: hs2).length + 1) > 0
            then 1 else 0) := by
    rw [List.filter_eq_self]
    intro x hx
    exact (List.mem_filter.mp (List.take_subset _ _ hx)).2
  rw [hfA, hfT, List.nil_append, List.length_take]
  by_cases hx : (t.filter isLike).length % ((p :: q :: hs2).length + 1) > 0
  · rw [if_pos hx]
    have hn : 0 < (t.filter isLike).length := by
      rcases Nat.eq_zero_or_pos (t.filter isLike).length with h0 | h0
      · rw [h0] at hx
        simp at hx
      · exact h0
    have hdiv := Nat.div_lt_self hn
      (show 1 < (p :: q :: hs2).length + 1 by simp)
    omega
  · rw [if_neg hx]
    have hdiv := Nat.div_le_self (t.filter isLike).length
      ((p :: q :: hs2).length + 1)
    omega

/-- C3 witness: the amended buffer formula evaluated at the concrete team
with h = 2 HAVE and l = 5 LIKE members. -/
theorem claim_C3_witness :
    likeCountBeforeFirstHave (orderTeam exC3) =
      (exC3.filter isLike).length / ((exC3.filter isHave).length + 1) +
      if (exC3.filter isLike).length % ((exC3.filter isHave).length + 1) > 0
        then 1 else 0 :=
  claim_C3 exC3 (by decide)

/-- C10: each iteration of the composer's while loop, taken while the loop
condition holds, strictly increases the sum of the three indices without
decreasing any of them and only appends to the output, so the loop
terminates; once the condition fails the loop contributes nothing. -/
theorem claim_C10 :
    (∀ (bhe ol hel : List (String × List Person)) (i j k : Nat),
      (i < bhe.length ∨ j < ol.length ∨ k < hel.length) →
      ∃ i2 j2 k2 emitted, i ≤ i2 ∧ j ≤ j2 ∧ k ≤ k2 ∧
        i + j + k < i2 + j2 + k2 ∧
        middleWhile bhe ol hel i j k =
          emitted ++ middleWhile bhe ol hel i2 j2 k2) ∧
    (∀ (bhe ol hel : List (String × List Person)) (i j k : Nat),
      ¬(i < bhe.length ∨ j < ol.length ∨ k < hel.length) →
      middleWhile bhe ol hel i j k = []) := by
  constructor
  · intro bhe ol hel i j k hc
    rw [middleWhile, dif_pos hc]
    by_cases hj : j < ol.length
    · rw [dif_pos hj]
      by_cases hi : i < bhe.length
      · rw [dif_pos hi]
        exact ⟨i + 1, j + 1, k,
          (ol.drop j).take 1 ++ (bhe.drop i).take 1,
          by omega, by omega, by omega, by omega,
          (List.append_assoc _ _ _).symm⟩
      · rw [dif_neg hi]
        exact ⟨i, j + 1, k, (ol.drop j).take 1,
          by omega, by omega, by omega, by omega, rfl⟩
    · rw [dif_neg hj]
      by_cases hk : k < hel.length
      · rw [dif_pos hk]
        by_cases hi : i < bhe.length
        · rw [dif_pos hi]
          exact ⟨i + 1, j, k + 1,
            (hel.drop k).take 1 ++ (bhe.drop i).take 1,
            by omega, by omega, by omega, by omega,
            (List.append_assoc _ _ _).symm⟩
        · rw [dif_neg hi]
          exact ⟨i, j, k + 1, (hel.drop k).take 1,
            by omega, by omega, by omega, by omega, rfl⟩
      · rw [dif_neg hk]
        exact ⟨i + 1, j, k, (bhe.drop i).take 1,
          by omega, by omega, by omega, by omega, rfl⟩
  · intro bhe ol hel i j k hc
    rw [middleWhile, dif_neg hc]

/-- C10 witness: one loop step at concrete buckets and indices. -/
theorem claim_C10_witness :
    ∃ i2 j2 k2 emitted, 0 ≤ i2 ∧ 0 ≤ j2 ∧ 0 ≤ k2 ∧
      0 + 0 + 0 < i2 + j2 + k2 ∧
      middleWhile exC10bhe [] [] 0 0 0 =
        emitted ++ middleWhile exC10bhe [] [] i2 j2 k2 :=
  claim_C10.1 exC10bhe [] [] 0 0 0 (by simp [exC10bhe])

/-! ### Adjacency within a team block -/

theorem chain_ok_of_no_avoid {l : List Person}
    (h : ∀ x ∈ l, isAvoid x = false) :
    l.Chain' (fun x y => ¬(isAvoid x = true ∧ isHave y = true) ∧
      ¬(isHave x = true ∧ isAvoid y = true)) := by
  refine List.Pairwise.chain' (List.pairwise_of_forall_mem_list ?_)
  intro a ha b hb
  constructor
  · rintro ⟨hA, _⟩
    rw [h a ha] at hA
    cases hA
  · rintro ⟨_, hA⟩
    rw [h b hb] at hA
    cases hA

theorem chain_ok_of_all_avoid {l : List Person}
    (h : ∀ x ∈ l, isAvoid x = true) :
    l.Chain' (fun x y => ¬(isAvoid x = true ∧ isHave y = true) ∧
      ¬(isHave x = true ∧ isAvoid y = true)) := by
  refine List.Pairwise.chain' (List.pairwise_of_forall_mem_list ?_)
  intro a ha b hb
  constructor
  · rintro ⟨_, hH⟩
    rw [(isAvoid_of_status (isAvoid_iff.mp (h b hb))).2.2] at hH
    cases hH
  · rintro ⟨hH, _⟩
    rw [(isAvoid_of_status (isAvoid_iff.mp (h a ha))).2.2] at hH
    cases hH

theorem ok_of_like_left {x y : Person} (hx : isLike x = true) :
    ¬(isAvoid x = true ∧ isHave y = true) ∧
      ¬(isHave x = true ∧ isAvoid y = true) := by
  constructor
  · rintro ⟨hA, _⟩
    rw [(isLike_of_status (isLike_iff.mp hx)).1] at hA
    cases hA
  · rintro ⟨hH, _⟩
    rw [(isLike_of_status (isLike_iff.mp hx)).2.2] at hH
    cases hH

/-- C8: in the ordered block of a team that has at least one LIKE member, no
AVOID member is ever adjacent to a HAVE member (in either order). -/
theorem claim_C8 (t : List Person) (h : ∃ p ∈ t, isLike p = true) :
    (orderTeam t).Chain' (fun x y =>
      ¬(isAvoid x = true ∧ isHave y = true) ∧
      ¬(isHave x = true ∧ isAvoid y = true)) := by
  have hLne : t.filter isLike ≠ [] := by
    obtain ⟨p, hp, hpl⟩ := h
    exact List.ne_nil_of_mem (List.mem_filter.mpr ⟨hp, hpl⟩)
  have hLpos : 0 < (t.filter isLike).length := List.length_pos.mpr hLne
  have hAall : ∀ x ∈ t.filter isAvoid, isAvoid x = true :=
    fun x hx => (List.mem_filter.mp hx).2
  by_cases hlen : (t.filter isHave).length > 1
  · rw [orderTeam_eq_many hlen]
    have hinit : 0 < (t.filter isLike).length /
        ((t.filter isHave).length + 1) +
        if (t.filter isLike).length % ((t.filter isHave).length + 1) > 0
          then 1 else 0 := by
      by_cases hx : (t.filter isLike).length %
          ((t.filter isHave).length + 1) > 0
      · rw [if_pos hx]
        exact Nat.succ_pos _
      · rw [if_neg hx]
        rcases Nat.eq_zero_or_pos ((t.filter isLike).length /
            ((t.filter isHave).length + 1)) with h0 | h0
        · have hdm := Nat.div_add_mod (t.filter isLike).length
            ((t.filter isHave).length + 1)
          rw [h0, Nat.mul_zero, Nat.zero_add] at hdm
          omega
        · rw [Nat.add_zero]
          exact h0
    have hTne : (t.filter isLike).take
        ((t.filter isLike).length / ((t.filter isHave).length + 1) +
          if (t.filter isLike).length % ((t.filter isHave).length + 1) > 0
            then 1 else 0) ≠ [] := by
      rw [← List.length_pos, List.length_take]
      omega
    have hTlike : ∀ x ∈ (t.filter isLike).take
        ((t.filter isLike).length / ((t.filter isHave).length + 1) +
          if (t.filter isLike).length % ((t.filter isHave).length + 1) > 0
            then 1 else 0), isLike x = true :=
      fun x hx => (List.mem_filter.mp (List.take_subset _ _ hx)).2
    rw [List.chain'_append]
    refine ⟨?_, ?_, ?_⟩
    · rw [List.chain'_append]
      refine ⟨chain_ok_of_all_avoid hAall, chain_ok_of_no_avoid
        (fun x hx => (isLike_of_status (isLike_iff.mp (hTlike x hx))).1), ?_⟩
      intro x hxl y hyh
      have hx : x ∈ t.filter isAvoid := List.mem_of_mem_getLast? hxl
      have hy := hTlike y (List.mem_of_mem_head? hyh)
      constructor
      · rintro ⟨_, hH⟩
        rw [(isLike_of_status (isLike_iff.mp hy)).2.2] at hH
        cases hH
      · rintro ⟨hH, _⟩
        rw [(isAvoid_of_status (isAvoid_iff.mp (hAall x hx))).2.2] at hH
        cases hH
    · refine chain_ok_of_no_avoid ?_
      intro x hx
      have hmem := (haveLoop_perm (t.filter isLike) _ _
        (t.filter isHave) 0 _).mem_iff.mp hx
      rcases List.mem_append.mp hmem with hx2 | hx2
      · exact (isHave_of_status (isHave_iff.mp
          (List.mem_filter.mp hx2).2)).1
      · exact (isLike_of_status (isLike_iff.mp
          (List.mem_filter.mp (List.drop_subset _ _ hx2)).2)).1
    · intro x hxl y _
      have hgl : (t.filter isAvoid ++ (t.filter isLike).take
          ((t.filter isLike).length / ((t.filter isHave).length + 1) +
            if (t.filter isLike).length % ((t.filter isHave).length + 1) > 0
              then 1 else 0)).getLast? =
          some (((t.filter isLike).take
            ((t.filter isLike).length / ((t.filter isHave).length + 1) +
              if (t.filter isLike).length %
                ((t.filter isHave).length + 1) > 0
                then 1 else 0)).getLast hTne) := by
        rw [List.getLast?_append, List.getLast?_eq_getLast _ hTne]
        rfl
      rw [hgl] at hxl
      have hxeq : x = ((t.filter isLike).take
          ((t.filter isLike).length / ((t.filter isHave).length + 1) +
            if (t.filter isLike).length % ((t.filter isHave).length + 1) > 0
              then 1 else 0)).getLast hTne :=
        (Option.some_inj.mp (Option.mem_def.mp hxl)).symm
      rw [hxeq]
      exact ok_of_like_left (hTlike _ (List.getLast_mem hTne))
  · rw [orderTeam_eq_few hlen]
    have hLall : ∀ x ∈ t.filter isLike, isLike x = true :=
      fun x hx => (List.mem_filter.mp hx).2
    rw [List.chain'_append]
    refine ⟨?_, ?_, ?_⟩
    · rw [List.chain'_append]
      refine ⟨chain_ok_of_all_avoid hAall, chain_ok_of_no_avoid
        (fun x hx => (isLike_of_status (isLike_iff.mp (hLall x hx))).1), ?_⟩
      intro x hxl y hyh
      have hx : x ∈ t.filter isAvoid := List.mem_of_mem_getLast? hxl
      have hy := hLall y (List.mem_of_mem_head? hyh)
      constructor
      · rintro ⟨_, hH⟩
        rw [(isLike_of_status (isLike_iff.mp hy)).2.2] at hH
        cases hH
      · rintro ⟨hH, _⟩
        rw [(isAvoid_of_status (isAvoid_iff.mp (hAall x hx))).2.2] at hH
        cases hH
    · refine chain_ok_of_no_avoid ?_
      intro x hx
      exact (isHave_of_status (isHave_iff.mp (List.mem_filter.mp hx).2)).1
    · intro x hxl y _
      have hgl : (t.filter isAvoid ++ t.filter isLike).getLast? =
          some ((t.filter isLike).getLast hLne) := by
        rw [List.getLast?_append, List.getLast?_eq_getLast _ hLne]
        rfl
      rw [hgl] at hxl
      have hxeq : x = (t.filter isLike).getLast hLne :=
        (Option.some_inj.mp (Option.mem_def.mp hxl)).symm
      rw [hxeq]
      exact ok_of_like_left (hLall _ (List.getLast_mem hLne))

/-- C8 witness at a concrete team with an AVOID, a LIKE and two HAVE
members. -/
theorem claim_C8_witness :
    (orderTeam exC8).Chain' (fun x y =>
      ¬(isAvoid x = true ∧ isHave y = true) ∧
      ¬(isHave x = true ∧ isAvoid y = true)) :=
  claim_C8 exC8 (by decide)

/-! ### Composition order and the two-team scenario -/

theorem teamKeysOf_uniform : ∀ (l : List Person) (k : String),
    (∀ p ∈ l, teamKey p = k) → l ≠ [] → teamKeysOf l = [k]
  | [], _, _, hne => absurd rfl hne
  | [q], k, hall, _ => by
    simp [teamKeysOf, hall q (List.mem_cons_self _ _)]
  | q :: r :: ps, k, hall, _ => by
    have ih := teamKeysOf_uniform (r :: ps) k
      (fun p hp => hall p (List.mem_cons_of_mem _ hp)) (by simp)
    show teamKey q :: (teamKeysOf (r :: ps)).filter
      (fun x => x != teamKey q) = [k]
    rw [ih, hall q (List.mem_cons_self _ _)]
    simp

theorem teamKeysOf_append_uniform :
    ∀ (avoidT haveT : List Person) (k1 k2 : String),
      (∀ p ∈ avoidT, teamKey p = k1) → (∀ p ∈ haveT, teamKey p = k2) →
      avoidT ≠ [] → haveT ≠ [] → k1 ≠ k2 →
      teamKeysOf (avoidT ++ haveT) = [k1, k2]
  | [], _, _, _, _, _, hne1, _, _ => absurd rfl hne1
  | [q], haveT, k1, k2, h1, h2, _, hne2, hk => by
    show teamKey q :: (teamKeysOf haveT).filter
      (fun x => x != teamKey q) = [k1, k2]
    rw [teamKeysOf_uniform haveT k2 h2 hne2, h1 q (List.mem_cons_self _ _)]
    simp [Ne.symm hk]
  | q :: r :: as2, haveT, k1, k2, h1, h2, _, hne2, hk => by
    have ih := teamKeysOf_append_uniform (r :: as2) haveT k1 k2
      (fun p hp => h1 p (List.mem_cons_of_mem _ hp)) h2 (by simp) hne2 hk
    show teamKey q :: (teamKeysOf ((r :: as2) ++ haveT)).filter
      (fun x => x != teamKey q) = [k1, k2]
    rw [ih, h1 q (List.mem_cons_self _ _)]
    simp [Ne.symm hk]

/-- C4: every successful result is the concatenation, in this exact order, of
the OnlyAvoid, AvoidEndLike, BothEndLike, middle, HaveEndHave and OnlyHave
blocks; consequently an input made of one all-AVOID team followed by one
all-HAVE team is returned unchanged, the all-AVOID team strictly first. -/
theorem claim_C4 :
    (∀ (people : List Person) (out : List Person),
      calculateDeskLayout people = some out →
      out = ((teamsOnlyAvoid (orderedTeams people) ++
        teamsAvoidEndLike (orderedTeams people) ++
        teamsWithBothEndLike (orderedTeams people) ++
        teamsInMiddle (teamsWithBothEndHave (orderedTeams people))
          (teamsOnlyLike (orderedTeams people))
          (teamsHaveEndLike (orderedTeams people)) ++
        teamsHaveEndHave (orderedTeams people) ++
        teamsOnlyHave (orderedTeams people)).map Prod.snd).flatten) ∧
    (∀ (avoidT haveT : List Person) (k1 k2 : String),
      avoidT ≠ [] → haveT ≠ [] → k1 ≠ k2 →
      (∀ p ∈ avoidT, p.dogStatus = some "AVOID" ∧ teamKey p = k1) →
      (∀ p ∈ haveT, p.dogStatus = some "HAVE" ∧ teamKey p = k2) →
      calculateDeskLayout (avoidT ++ haveT) = some (avoidT ++ haveT)) := by
  constructor
  · intro people out hcalc
    exact (calculateDeskLayout_some_inv hcalc).2
  · intro avoidT haveT k1 k2 hne1 hne2 hk h1 h2
    have hkeys : teamKeysOf (avoidT ++ haveT) = [k1, k2] :=
      teamKeysOf_append_uniform avoidT haveT k1 k2 (fun p hp => (h1 p hp).2)
        (fun p hp => (h2 p hp).2) hne1 hne2 hk
    have hfilter1 : (avoidT ++ haveT).filter
        (fun p => teamKey p == k1) = avoidT := by
      rw [List.filter_append]
      have e1 : avoidT.filter (fun p => teamKey p == k1) = avoidT :=
        List.filter_eq_self.mpr (fun p hp => by simp [(h1 p hp).2])
      have e2 : haveT.filter (fun p => teamKey p == k1) = [] := by
        rw [List.filter_eq_nil_iff]
        intro p hp hc
        have hp2 : teamKey p = k1 := by simpa using hc
        rw [(h2 p hp).2] at hp2
        exact hk hp2.symm
      rw [e1, e2, List.append_nil]
    have hfilter2 : (avoidT ++ haveT).filter
        (fun p => teamKey p == k2) = haveT := by
      rw [List.filter_append]
      have e1 : avoidT.filter (fun p => teamKey p == k2) = [] := by
        rw [List.filter_eq_nil_iff]
        intro p hp hc
        have hp2 : teamKey p = k2 := by simpa using hc
        rw [(h1 p hp).2] at hp2
        exact hk hp2
      have e2 : haveT.filter (fun p => teamKey p == k2) = haveT :=
        List.filter_eq_self.mpr (fun p hp => by simp [(h2 p hp).2])
      rw [e1, e2, List.nil_append]
    have hOT1 : orderTeam avoidT = avoidT := by
      have hA : avoidT.filter isAvoid = avoidT :=
        List.filter_eq_self.mpr
          (fun p hp => (isAvoid_of_status (h1 p hp).1).1)
      have hL : avoidT.filter isLike = [] := by
        rw [List.filter_eq_nil_iff]
        intro p hp hc
        rw [(isAvoid_of_status (h1 p hp).1).2.1] at hc
        cases hc
      have hH : avoidT.filter isHave = [] := by
        rw [List.filter_eq_nil_iff]
        intro p hp hc
        rw [(isAvoid_of_status (h1 p hp).1).2.2] at hc
        cases hc
      rw [orderTeam_eq_few (by rw [hH]; simp), hA, hL, hH]
      simp
    have hOT2 : orderTeam haveT = haveT := by
      have hA : haveT.filter isAvoid = [] := by
        rw [List.filter_eq_nil_iff]
        intro p hp hc
        rw [(isHave_of_status (h2 p hp).1).1] at hc
        cases hc
      have hL : haveT.filter isLike = [] := by
        rw [List.filter_eq_nil_iff]
        intro p hp hc
        rw [(isHave_of_status (h2 p hp).1).2.1] at hc
        cases hc
      have hH : haveT.filter isHave = haveT :=
        List.filter_eq_self.mpr
          (fun p hp => (isHave_of_status (h2 p hp).1).2.2)
      by_cases hlen : (haveT.filter isHave).length > 1
      · rw [orderTeam_eq_many hlen, hA, hL, hH, haveLoop_nil_like]
        simp
      · rw [orderTeam_eq_few hlen, hA, hL, hH]
        simp
    have hts : orderedTeams (avoidT ++ haveT) =
        [(k1, avoidT), (k2, haveT)] := by
      unfold orderedTeams teamGroups
      rw [hkeys]
      simp only [List.map_cons, List.map_nil]
      rw [hfilter1, hfilter2, hOT1, hOT2]
    obtain ⟨pa, hpa⟩ := List.exists_mem_of_ne_nil avoidT hne1
    obtain ⟨ph, hph⟩ := List.exists_mem_of_ne_nil haveT hne2
    have f1 : hasAvoid avoidT = true := by
      rw [hasAvoid, List.any_eq_true]
      exact ⟨pa, hpa, (isAvoid_of_status (h1 pa hpa).1).1⟩
    have f2 : hasHave avoidT = false := by
      rw [hasHave, List.any_eq_false]
      intro p hp hc
      rw [(isAvoid_of_status (h1 p hp).1).2.2] at hc
      cases hc
    have f3 : hasAvoid haveT = false := by
      rw [hasAvoid, List.any_eq_false]
      intro p hp hc
      rw [(isHave_of_status (h2 p hp).1).1] at hc
      cases hc
    have f4 : hasHave haveT = true := by
      rw [hasHave, List.any_eq_true]
      exact ⟨ph, hph, (isHave_of_status (h2 ph hph).1).2.2⟩
    have f5 : samePrefs avoidT = true :=
      samePrefs_of_uniform (fun p hp => (h1 p hp).1)
    have f6 : samePrefs haveT = true :=
      samePrefs_of_uniform (fun p hp => (h2 p hp).1)
    have f7 : headIs avoidT "AVOID" = true :=
      headIs_true_of_status hne1 ((h1 _ (List.head_mem hne1)).1)
    have f8 : headIs avoidT "LIKE" = false :=
      headIs_false_of_status hne1 ((h1 _ (List.head_mem hne1)).1) (by decide)
    have f9 : headIs avoidT "HAVE" = false :=
      headIs_false_of_status hne1 ((h1 _ (List.head_mem hne1)).1) (by decide)
    have f10 : headIs haveT "AVOID" = false :=
      headIs_false_of_status hne2 ((h2 _ (List.head_mem hne2)).1) (by decide)
    have f11 : headIs haveT "LIKE" = false :=
      headIs_false_of_status hne2 ((h2 _ (List.head_mem hne2)).1) (by decide)
    have f12 : headIs haveT "HAVE" = true :=
      headIs_true_of_status hne2 ((h2 _ (List.head_mem hne2)).1)
    have hne' : ∀ kt ∈ remainingTeams (orderedTeams (avoidT ++ haveT)),
        kt.2 ≠ [] := by
      rw [hts]
      intro kt hkt
      have hktmem := List.mem_of_mem_filter hkt
      rcases List.mem_cons.mp hktmem with rfl | h2m
      · exact hne1
      · rcases List.mem_cons.mp h2m with rfl | h3m
        · exact hne2
        · cases h3m
    rw [calculateDeskLayout_eq_some hne', hts]
    simp only [emittedTeams, teamsOnlyAvoid, teamsAvoidEndLike,
      teamsWithBothEndLike, teamsWithBothEndHave, teamsOnlyLike,
      teamsHaveEndLike, teamsHaveEndHave, teamsOnlyHave,
      teamsSamePreferences, teamsDifferentPreferences,
      teamsWithAvoidAndHave, remainingTeams, List.filter_cons,
      List.filter_nil, f1, f2, f3, f4, f5, f6, f7, f8, f9, f10, f11, f12]
    simp [teamsInMiddle, f1, f2, f3, f4, f5, f6, f7, f8, f9, f10, f11, f12]

/-- C4 witness: the concrete all-AVOID team is placed strictly before the
concrete all-HAVE team. -/
theorem claim_C4_witness :
    calculateDeskLayout (exC4as ++ exC4hs) = some (exC4as ++ exC4hs) :=
  claim_C4.2 exC4as exC4hs "A" "B" (by decide) (by decide) (by decide)
    (by decide) (by decide)

end DeskLayout
